import Mathlib

/-!
Verification development for the paraverse-websocket identity and presence
engine.  The definitions below are a shallow embedding of the JavaScript
sources: `UserManager` (src/unnamed/part_004), `ClientManager`
(src/managers/ClientManager.js) and the identity/close handlers of
src/server.js.

Modelling conventions:
* JavaScript `Map`s become association lists (`List (key × value)`) in
  insertion order; `Map.set` on a present key updates in place, on a fresh
  key appends, and `Map.delete` removes the unique entry, exactly as the
  `assocSet` / `assocErase` helpers do.
* The ambient clock (`Date.now()` / `new Date().toISOString()`) and the
  randomly minted fresh user id are passed in explicitly as parameters.
* Optional / possibly-empty string arguments keep JavaScript truthiness:
  `none` and `some ""` are both falsy (`jsTruthyS`).
* Numeric timestamps are `Nat`; the two comparisons the code performs
  (`now - t < c`, `now - t > c`) agree between JavaScript signed
  subtraction and truncated `Nat` subtraction because the thresholds are
  positive.
-/

/-- First value of an association list bound to `k` (JavaScript `Map.get`). -/
def assocFind {α β : Type} [DecidableEq α] (l : List (α × β)) (k : α) : Option β :=
  match l with
  | [] => none
  | (a, b) :: t => if a = k then some b else assocFind t k

/-- JavaScript `Map.set`: update in place if the key is present, else append. -/
def assocSet {α β : Type} [DecidableEq α] (l : List (α × β)) (k : α) (v : β) :
    List (α × β) :=
  match l with
  | [] => [(k, v)]
  | (a, b) :: t => if a = k then (k, v) :: t else (a, b) :: assocSet t k v

/-- JavaScript `Map.delete`: remove the first entry bound to `k`. -/
def assocErase {α β : Type} [DecidableEq α] (l : List (α × β)) (k : α) :
    List (α × β) :=
  match l with
  | [] => []
  | (a, b) :: t => if a = k then t else (a, b) :: assocErase t k

/-- Key list of an association list, in insertion order. -/
def akeys {α β : Type} (l : List (α × β)) : List α :=
  l.map Prod.fst

/-- Membership of a key (JavaScript `Map.has`). -/
def assocHas {α β : Type} [DecidableEq α] (l : List (α × β)) (k : α) : Bool :=
  (assocFind l k).isSome

/-- JavaScript truthiness of an optional string: `undefined`/`null` and the
empty string are falsy. -/
def jsTruthyS (o : Option String) : Bool :=
  match o with
  | none => false
  | some s => s ≠ ""

/-- Value of an optional string argument, with `undefined` read as `""`
(both are falsy wherever the source tests them). -/
def optS (o : Option String) : String := o.getD ""

/-- JavaScript `a || b` on strings (`""` is the only falsy string). -/
def jsOrStr (a b : String) : String := if a = "" then b else a

/-- JavaScript `a || b` on numeric timestamps (`0` is the falsy number). -/
def jsOrNat (a b : Nat) : Nat := if a = 0 then b else a

section AssocLemmas

theorem assocFind_assocSet_self {α β : Type} [DecidableEq α] (l : List (α × β))
    (k : α) (v : β) : assocFind (assocSet l k v) k = some v := by
  induction l with
  | nil => simp [assocSet, assocFind]
  | cons e t ih =>
    obtain ⟨a, b⟩ := e
    by_cases h : a = k
    · simp [assocSet, assocFind, h]
    · simp [assocSet, assocFind, h, ih]

theorem assocFind_assocSet_ne {α β : Type} [DecidableEq α] (l : List (α × β))
    (k k' : α) (v : β) (h : k' ≠ k) :
    assocFind (assocSet l k v) k' = assocFind l k' := by
  induction l with
  | nil => simp [assocSet, assocFind, Ne.symm h]
  | cons e t ih =>
    obtain ⟨a, b⟩ := e
    by_cases ha : a = k
    · subst ha
      simp [assocSet, assocFind, Ne.symm h]
    · by_cases ha' : a = k'
      · subst ha'
        simp [assocSet, assocFind, ha, h]
      · simp [assocSet, assocFind, ha, ha', ih]

theorem akeys_assocSet_of_has {α β : Type} [DecidableEq α] (l : List (α × β))
    (k : α) (v : β) (h : assocHas l k = true) :
    akeys (assocSet l k v) = akeys l := by
  induction l with
  | nil => simp [assocHas, assocFind] at h
  | cons e t ih =>
    obtain ⟨a, b⟩ := e
    by_cases ha : a = k
    · subst ha
      simp [assocSet, akeys]
    · have ht : assocHas t k = true := by
        simpa [assocHas, assocFind, ha] using h
      simp [assocSet, akeys, ha] at ih ⊢
      exact ih ht

theorem assocHas_of_find {α β : Type} [DecidableEq α] {l : List (α × β)} {k : α}
    {v : β} (h : assocFind l k = some v) : assocHas l k = true := by
  simp [assocHas, h]

theorem assocFind_mem {α β : Type} [DecidableEq α] {l : List (α × β)} {k : α}
    {v : β} (h : assocFind l k = some v) : (k, v) ∈ l := by
  induction l with
  | nil => simp [assocFind] at h
  | cons e t ih =>
    obtain ⟨a, b⟩ := e
    by_cases ha : a = k
    · subst ha
      simp [assocFind] at h
      simp [h]
    · simp [assocFind, ha] at h
      exact List.mem_cons_of_mem _ (ih h)

end AssocLemmas

/-!  Fingerprint normalization (`UserManager.getStableFingerprint`).

The source tests the fingerprint against the anchored regular expression
"dash, then nine or more digits, then end of string" and removes the
match.  A match exists exactly when the
maximal trailing run of decimal digits has length at least 9 and is
preceded by a dash; the regex engine removes that dash together with the
trailing run (a match must consist of a literal `-` followed only by
digits reaching the end of the string, so it starts at the last dash).  -/

/-- Maximal trailing run of decimal digits of a character list. -/
def trailingDigits (l : List Char) : List Char :=
  l.reverse.takeWhile Char.isDigit

/-- Does the timestamp pattern match?  True when the trailing digit run
has length at least 9 and the character just before it is a dash. -/
def timestampMatches (l : List Char) : Bool :=
  decide (9 ≤ (trailingDigits l).length) &&
    decide ((l.reverse.drop (trailingDigits l).length).head? = some '-')

/-- Result of removing the timestamp-pattern match on a matching input:
drop the trailing digit run and the dash before it. -/
def stripTimestamp (l : List Char) : List Char :=
  (l.reverse.drop ((trailingDigits l).length + 1)).reverse

/-- `UserManager.getStableFingerprint`: strip one trailing
"dash + ≥9 digits" suffix, if present; empty input is returned as is. -/
def getStableFingerprint (fingerprint : String) : String :=
  if fingerprint = "" then fingerprint
  else if timestampMatches fingerprint.data then
    String.mk (stripTimestamp fingerprint.data)
  else fingerprint

example : getStableFingerprint "browser-abc123-1615484848" = "browser-abc123" := by
  decide

example : getStableFingerprint "fp-abc-1700000000000" = "fp-abc" := by decide

example : getStableFingerprint "fp-abc" = "fp-abc" := by decide

example : getStableFingerprint "abc-111111111-222222222" = "abc-111111111" := by
  decide

/-! ## Data model

`UserManager` owns three JavaScript `Map`s: `users` (player identities),
`browserToUser` (fingerprint bindings) and `userStats` (statistics), plus
the guest-name counter.  The `locationCache` field of the source is never
read or written by the current code and is omitted. -/

/-- Ambient clock: `Date.now()` and `new Date().toISOString()`. -/
structure Clock where
  now : Nat
  nowIso : String
deriving DecidableEq

/-- Value stored in `browserToUser` (a fingerprint binding). -/
structure UserData where
  userId : String
  userName : String
  firstSeen : Nat
  lastActivity : Nat
  firstJoined : String
  location : String
  status : String
  lastStatusChange : Nat
deriving DecidableEq

/-- Value stored in `users` (a player identity record). -/
structure UserRec where
  id : String
  name : String
  ip : String
  origin : String
  connected : Nat
  firstJoined : String
  location : String
  status : String
  lastStatusChange : Nat
deriving DecidableEq

/-- A JavaScript value as it can appear in the open-typed statistic slots
(`updatePlayerGameStat` stores whatever the caller sent). -/
inductive JVal where
  | num (n : Int)
  | str (s : String)
  | boolean (b : Bool)
deriving DecidableEq

/-- JavaScript falsiness of a `JVal` (`0`, `""`, `false`). -/
def jvalFalsy (v : JVal) : Bool :=
  match v with
  | .num n => n = 0
  | .str s => s = ""
  | .boolean b => !b

/-- JavaScript `a || d` on open-typed values. -/
def jvalOr (a d : JVal) : JVal := if jvalFalsy a then d else a

/-- JavaScript `v += 1` on an open-typed value: numbers increment, strings
concatenate `"1"`, booleans coerce to numbers first. -/
def jvalAdd1 (v : JVal) : JVal :=
  match v with
  | .num n => .num (n + 1)
  | .str s => .str (s ++ "1")
  | .boolean b => .num (if b then 2 else 1)

/-- Value stored in `userStats`.  The source object literal lists `health`
twice (combat block and player-stats block) with the same value `1000`; in
JavaScript the later duplicate key wins, so there is a single field here.
`animationState` is not in the literal and only appears when
`updatePlayerGameStat` writes it, hence the `Option`.  The slots reachable
from the `updatePlayerGameStat` allow-list are open-typed (`JVal`). -/
structure Stats where
  meteorsSent : Int
  objectsShot : Int
  firstJoined : String
  location : String
  status : String
  damageDealt : Int
  damageTaken : Int
  kills : Int
  deaths : Int
  projectilesFired : Int
  projectileHits : Int
  isFlying : Bool
  isStunned : Bool
  isSafeMode : Bool
  isDriving : Bool
  isCartVisible : Bool
  isPushing : Bool
  isPushCartVisible : Bool
  cartPrimaryColor : String
  cartSecondaryColor : String
  level : JVal
  health : JVal
  attack : JVal
  ability : JVal
  weapon : JVal
  emblem : JVal
  timePlayed : JVal
  deliveriesMade : JVal
  animationState : Option JVal
deriving DecidableEq

/-- The statistics record built by `initUserStats` (the later of the two
definitions in the class body, which shadows the earlier one). -/
def defaultStats (firstJoined location : String) : Stats where
  meteorsSent := 0
  objectsShot := 0
  firstJoined := firstJoined
  location := location
  status := "online"
  damageDealt := 0
  damageTaken := 0
  kills := 0
  deaths := 0
  projectilesFired := 0
  projectileHits := 0
  isFlying := false
  isStunned := false
  isSafeMode := true
  isDriving := false
  isCartVisible := false
  isPushing := false
  isPushCartVisible := false
  cartPrimaryColor := "#FF9800"
  cartSecondaryColor := "#F44336"
  level := .num 1
  health := .num 1000
  attack := .num 0
  ability := .num 0
  weapon := .str "None"
  emblem := .str "None"
  timePlayed := .str "0d 0h"
  deliveriesMade := .num 0
  animationState := none

/-- State of a `UserManager` instance. -/
structure UMState where
  users : List (String × UserRec)
  browserToUser : List (String × UserData)
  guestCounter : Nat
  userStats : List (String × Stats)
deriving DecidableEq

/-- Result object of `processUserIdentity`.  Returning-player results carry
no `conflictDetected` property in the source; `handleIdentity` reads the
missing property as `false`, which is how it is represented here. -/
structure IdentityResult where
  userId : String
  userName : String
  isReturning : Bool
  firstJoined : String
  location : String
  status : String
  conflictDetected : Bool
deriving DecidableEq

/-- Conflict-tolerance threshold of `processUserIdentity`: 7 days in ms. -/
def MAX_INACTIVE_TIME : Nat := 7 * 24 * 60 * 60 * 1000

/-- Retention threshold of `pruneInactiveBrowsers`: 24 hours in ms. -/
def INACTIVE_THRESHOLD : Nat := 24 * 60 * 60 * 1000

/-- Presence-list cap of `broadcastUserList`. -/
def MAX_USERS_TO_BROADCAST : Nat := 100

/-- Concurrency cap of `hasUserExceededConnectionLimit`. -/
def MAX_CONNECTIONS_PER_USER : Nat := 5

/-- `UserManager.generateGuestName`: sequential guest name plus the bumped
counter. -/
def generateGuestName (guestCounter : Nat) : String × Nat :=
  (s!"Guest{guestCounter}", guestCounter + 1)

/-- Character-level `startsWith` (JavaScript `indexOf(p) === 0`). -/
def jsStartsWith (s p : String) : Bool :=
  p.data.isPrefixOf s.data

/-- `UserManager.getLocationFromIp`: both arms return `"Earth"` in the
current source (location is client-reported later). -/
def getLocationFromIp (clientIp : String) : String :=
  let ip := if jsStartsWith clientIp "::ffff:" then
      String.mk (clientIp.data.drop 7)
    else clientIp
  if ip = "127.0.0.1" ∨ ip = "localhost" ∨ jsStartsWith ip "192.168." ∨
      jsStartsWith ip "10." ∨ jsStartsWith ip "172.16." then "Earth"
  else "Earth"

/-- `UserManager.initUserStats` on the `userStats` table: create the
default record if the key is absent; return the bound record either way.
`firstJoined`/`location` default via JavaScript `||` to the current ISO
time and `"Unknown"`. -/
def initUserStats (stats : List (String × Stats)) (clock : Clock)
    (userId : String) (firstJoined location : Option String) :
    Stats × List (String × Stats) :=
  match assocFind stats userId with
  | some st => (st, stats)
  | none =>
    let st := defaultStats (jsOrStr (optS firstJoined) clock.nowIso)
      (jsOrStr (optS location) "Unknown")
    (st, assocSet stats userId st)

/-- `UserManager.getUserStats`: the bound record, or `initUserStats` with
no explicit `firstJoined`/`location`. -/
def getUserStats (stats : List (String × Stats)) (clock : Clock)
    (userId : String) : Stats × List (String × Stats) :=
  match assocFind stats userId with
  | some st => (st, stats)
  | none => initUserStats stats clock userId none none

/-- `UserManager.updateUserStats` (the later definition, which shadows the
earlier one): bump the counter selected by `action`.  The `if (!stats.x)
stats.x = 0` guards are no-ops for the always-present numeric fields and a
falsy-reset for the open-typed `deliveriesMade`. -/
def updateUserStats (stats : List (String × Stats)) (clock : Clock)
    (userId action : String) (amount : Int) :
    Stats × List (String × Stats) :=
  let p := getUserStats stats clock userId
  let st := p.1
  let st' :=
    if action = "meteorSent" then { st with meteorsSent := st.meteorsSent + 1 }
    else if action = "objectShot" then
      { st with objectsShot := st.objectsShot + 1 }
    else if action = "projectileFired" then
      { st with projectilesFired := st.projectilesFired + amount }
    else if action = "projectileHit" then
      { st with projectileHits := st.projectileHits + amount }
    else if action = "deliveryMade" then
      { st with deliveriesMade :=
          jvalAdd1 (if jvalFalsy st.deliveriesMade then .num 0
            else st.deliveriesMade) }
    else st
  (st', assocSet p.2 userId st')

/-- Allow-list of `updatePlayerGameStat`. -/
def allowedStats : List String :=
  ["level", "health", "attack", "ability", "weapon", "emblem", "timePlayed",
    "animationState", "deliveriesMade"]

/-- Store `value` in the named allow-listed slot. -/
def setGameStat (st : Stats) (stat : String) (value : JVal) : Stats :=
  if stat = "level" then { st with level := value }
  else if stat = "health" then { st with health := value }
  else if stat = "attack" then { st with attack := value }
  else if stat = "ability" then { st with ability := value }
  else if stat = "weapon" then { st with weapon := value }
  else if stat = "emblem" then { st with emblem := value }
  else if stat = "timePlayed" then { st with timePlayed := value }
  else if stat = "animationState" then { st with animationState := some value }
  else if stat = "deliveriesMade" then { st with deliveriesMade := value }
  else st

/-- `UserManager.updatePlayerGameStat`: fetch (and thereby create) the
stats record, reject disallowed stat names by returning the record
unchanged, else store the value.  The source's `if (!stats) return null`
arm is unreachable because `getUserStats` always returns an object; the
`Option` result records that the observable result is always `some`. -/
def updatePlayerGameStat (stats : List (String × Stats)) (clock : Clock)
    (userId stat : String) (value : JVal) :
    Option Stats × List (String × Stats) :=
  let p := getUserStats stats clock userId
  if stat ∈ allowedStats then
    let st' := setGameStat p.1 stat value
    (some st', assocSet p.2 userId st')
  else (some p.1, p.2)

/-- Update the `users` record under `k` in place when present
(the source's `const u = this.users.get(k); if (u) ...` idiom). -/
def usersAdjust (users : List (String × UserRec)) (k : String)
    (f : UserRec → UserRec) : List (String × UserRec) :=
  match assocFind users k with
  | some v => assocSet users k (f v)
  | none => users

/-- `UserManager.updateUserStatus`: find the first binding whose
`userId` matches, flip its status, then propagate to `users` and
`userStats`.  The loop records the fingerprint and the source re-tests its
truthiness, so a binding under the empty-string key flips the binding but
skips the propagation and returns `false`. -/
def updateUserStatus (um : UMState) (clock : Clock) (userId status : String) :
    Bool × UMState :=
  match um.browserToUser.find? (fun e => e.2.userId == userId) with
  | none => (false, um)
  | some (fp, ud) =>
    let btu' := assocSet um.browserToUser fp
      { ud with status := status, lastStatusChange := clock.now }
    if fp = "" then (false, { um with browserToUser := btu' })
    else
      let users' := usersAdjust um.users userId
        (fun ur => { ur with status := status, lastStatusChange := clock.now })
      let p := getUserStats um.userStats clock userId
      let stats' := assocSet p.2 userId { p.1 with status := status }
      (true, { um with
        browserToUser := btu'
        users := users'
        userStats := stats' })

/-! ## Identity resolution (`UserManager.processUserIdentity`)

The source mutates `existingUserData` in place after possibly aliasing it
under the just-learned fingerprint key (step 2).  A pure embedding cannot
share references between keys, so the mutated record is written back under
both keys involved in the current call; this is observationally equivalent
for the properties proved here (the shared `userId` is never mutated, and
no theorem below reads the mutable fields of a third aliased key).
`Date.now()`, `new Date().toISOString()` and the randomly minted id
`user-<time>-<random>` arrive as the `clock` and `freshUserId`
parameters. -/

/-- The returning-player tail of `processUserIdentity`: rename, update
location, mark online, ensure stats, and write the mutated record back
under `kFound` (where it was found) and `k` (the normalized key of this
call; equal to `kFound` on an exact hit). -/
def returningUser (um : UMState) (clock : Clock)
    (btu0 : List (String × UserData)) (kFound k : String) (ud : UserData)
    (providedUserName : Option String) (location : String) :
    IdentityResult × UMState :=
  let uid := ud.userId
  let nameChanged := jsTruthyS providedUserName = true ∧
    optS providedUserName ≠ ud.userName
  let ud1 := if nameChanged then { ud with userName := optS providedUserName }
    else ud
  let users1 := if nameChanged then
      usersAdjust um.users uid (fun ur => { ur with name := optS providedUserName })
    else um.users
  let relocating := location ≠ "" ∧ (ud1.location = "" ∨
    ud1.location = "Unknown" ∨ ud1.location = "Earth")
  let ud2 := if relocating then { ud1 with location := location } else ud1
  let users2 := if relocating then
      usersAdjust users1 uid (fun ur => { ur with location := location })
    else users1
  let ud3 := { ud2 with status := "online", lastStatusChange := clock.now }
  let users3 := usersAdjust users2 uid
    (fun ur => { ur with status := "online", lastStatusChange := clock.now })
  let p := initUserStats um.userStats clock uid
    (some ud3.firstJoined) (some ud3.location)
  let stats2 := assocSet p.2 uid { p.1 with status := "online" }
  let btu' := assocSet (assocSet btu0 kFound ud3) k ud3
  ({ userId := uid
     userName := ud3.userName
     isReturning := true
     firstJoined := ud3.firstJoined
     location := jsOrStr ud3.location location
     status := "online"
     conflictDetected := false },
   { um with users := users3, browserToUser := btu', userStats := stats2 })

/-- `UserManager.processUserIdentity`.  Step 1: exact lookup of the
normalized fingerprint.  Step 2: if that misses and a `userId` was
provided, adopt the first binding carrying that `userId` and learn the new
fingerprint as an alias.  Otherwise register a new player, validating the
provided `userId` against conflicting bindings (tolerated only when every
conflicting binding has been inactive for `MAX_INACTIVE_TIME`). -/
def processUserIdentity (um : UMState) (clock : Clock) (freshUserId : String)
    (browserFingerprint : String)
    (providedUserId providedUserName : Option String)
    (clientIp clientOrigin : String) : IdentityResult × UMState :=
  let location := getLocationFromIp clientIp
  let stableFingerprint := getStableFingerprint browserFingerprint
  match assocFind um.browserToUser stableFingerprint with
  | some ud =>
    returningUser um clock um.browserToUser stableFingerprint
      stableFingerprint ud providedUserName location
  | none =>
    let pid := optS providedUserId
    match (if pid ≠ "" then
        um.browserToUser.find? (fun e => e.2.userId == pid) else none) with
    | some (k0, ud) =>
      returningUser um clock
        (assocSet um.browserToUser stableFingerprint ud) k0
        stableFingerprint ud providedUserName location
    | none =>
      let conflicting := if pid ≠ "" then
          (um.browserToUser.filter (fun e => e.2.userId == pid)).map Prod.fst
        else []
      let allInactive := conflicting.all (fun fp =>
        match assocFind um.browserToUser fp with
        | some ud0 =>
          !(clock.now - jsOrNat ud0.lastActivity (jsOrNat ud0.firstSeen 0) <
            MAX_INACTIVE_TIME)
        | none => true)
      let isProvidedUserIdValid : Bool :=
        if pid = "" then false
        else if conflicting.isEmpty then true
        else allInactive
      let conflictDetected : Bool :=
        if pid = "" then false
        else if conflicting.isEmpty then false
        else !allInactive
      let userId := if isProvidedUserIdValid then pid else freshUserId
      let guest := generateGuestName um.guestCounter
      let userName :=
        if jsTruthyS providedUserName then optS providedUserName else guest.1
      let guestCounter' :=
        if jsTruthyS providedUserName then um.guestCounter else guest.2
      let firstJoined := clock.nowIso
      let newUd : UserData :=
        { userId := userId
          userName := userName
          firstSeen := clock.now
          lastActivity := clock.now
          firstJoined := firstJoined
          location := location
          status := "online"
          lastStatusChange := clock.now }
      let btu' := assocSet um.browserToUser stableFingerprint newUd
      let newUr : UserRec :=
        { id := userId
          name := userName
          ip := clientIp
          origin := clientOrigin
          connected := clock.now
          firstJoined := firstJoined
          location := location
          status := "online"
          lastStatusChange := clock.now }
      let users' := assocSet um.users userId newUr
      let p := initUserStats um.userStats clock userId
        (some firstJoined) (some location)
      let stats' := assocSet p.2 userId { p.1 with status := "online" }
      ({ userId := userId
         userName := userName
         isReturning := false
         firstJoined := firstJoined
         location := location
         status := "online"
         conflictDetected := conflictDetected },
       { users := users'
         browserToUser := btu'
         guestCounter := guestCounter'
         userStats := stats' })

/-! ## Presence broadcast (`UserManager.broadcastUserList`) -/

/-- JavaScript `a || d` on numbers stored in the closed numeric slots. -/
def jsOrInt (a d : Int) : Int := if a = 0 then d else a

/-- The trimmed per-entry statistics block of a presence entry. -/
structure PresenceStats where
  meteorsSent : Int
  objectsShot : Int
  firstJoined : String
  location : String
  level : JVal
  health : JVal
  attack : JVal
  ability : JVal
  weapon : JVal
  emblem : JVal
  timePlayed : JVal
deriving DecidableEq

/-- One entry of the broadcast presence list. -/
structure PresenceEntry where
  id : String
  name : String
  stats : PresenceStats
  firstJoined : String
  location : String
  status : String
deriving DecidableEq

/-- The message `broadcastUserList` serializes: either the plain entry
array, or the `userListTruncated` envelope with the reported total. -/
inductive BroadcastMessage where
  | plain (users : List PresenceEntry)
  | truncated (users : List PresenceEntry) (total shown : Nat)
deriving DecidableEq

/-- Entry list carried by a broadcast message. -/
def BroadcastMessage.userList : BroadcastMessage → List PresenceEntry
  | .plain users => users
  | .truncated users _ _ => users

/-- Is the message the truncation envelope? -/
def BroadcastMessage.isTruncated : BroadcastMessage → Bool
  | .plain _ => false
  | .truncated _ _ _ => true

/-- Build one presence entry from a binding and its stats record, with the
source's falsy-default fallbacks. -/
def mkPresenceEntry (ud : UserData) (st : Stats) : PresenceEntry where
  id := ud.userId
  name := jsOrStr ud.userName ("Guest-" ++ String.mk (ud.userId.data.take 4))
  stats :=
    { meteorsSent := jsOrInt st.meteorsSent 0
      objectsShot := jsOrInt st.objectsShot 0
      firstJoined := jsOrStr st.firstJoined ud.firstJoined
      location := jsOrStr st.location (jsOrStr ud.location "Unknown")
      level := jvalOr st.level (.num 0)
      health := jvalOr st.health (.num 100)
      attack := jvalOr st.attack (.num 10)
      ability := jvalOr st.ability (.num 10)
      weapon := jvalOr st.weapon (.str "none")
      emblem := jvalOr st.emblem (.str "none")
      timePlayed := jvalOr st.timePlayed (.str "0d 0h") }
  firstJoined := ud.firstJoined
  location := jsOrStr ud.location "Unknown"
  status := jsOrStr ud.status "offline"

/-- Loop body of `broadcastUserList`: push an entry when the `userId` is
unseen and the list is below the cap.  `seenUserIds` models the JS `Set`
as an insertion-ordered list (every add is guarded by the `has` check, so
its length is the Set's `size`).  `getUserStats` creates a missing stats
record as a side effect, so the stats table is threaded through. -/
def broadcastStep (clock : Clock)
    (acc : List PresenceEntry × List String × List (String × Stats))
    (e : String × UserData) :
    List PresenceEntry × List String × List (String × Stats) :=
  let activeUsers := acc.1
  let seenUserIds := acc.2.1
  let stats := acc.2.2
  let ud := e.2
  if ud.userId ∉ seenUserIds ∧ activeUsers.length < MAX_USERS_TO_BROADCAST then
    let p := getUserStats stats clock ud.userId
    (activeUsers ++ [mkPresenceEntry ud p.1], seenUserIds ++ [ud.userId], p.2)
  else acc

/-- `UserManager.broadcastUserList`: fold the dedup-and-cap loop over the
bindings in insertion order, then choose the truncation envelope when
`seenUserIds.size` exceeds the cap.  The resulting message is sent to every
open client with per-client error isolation (transport out of scope). -/
def broadcastUserList (um : UMState) (clock : Clock) :
    BroadcastMessage × UMState :=
  let r := um.browserToUser.foldl (broadcastStep clock) ([], [], um.userStats)
  let message :=
    if r.2.1.length > MAX_USERS_TO_BROADCAST then
      BroadcastMessage.truncated r.1 r.2.1.length MAX_USERS_TO_BROADCAST
    else BroadcastMessage.plain r.1
  (message, { um with userStats := r.2.2 })

/-! ## Connection registry (`ClientManager`)

Connections are keyed by the `ws` object; an opaque `Nat` handle stands in
for it.  `userId` and `browserFingerprint` start as `null` and are set by
the identity handler. -/

/-- Value stored in `connectedClients`. -/
structure ClientData where
  id : String
  userId : Option String
  browserFingerprint : Option String
  ip : String
  origin : String
  connected : Nat
  messages : Nat
deriving DecidableEq

/-- State of a `ClientManager` instance (the rate-limiter and association
maps are unrelated to the claims proved here and are omitted). -/
structure CMState where
  connectedClients : List (Nat × ClientData)
deriving DecidableEq

/-- `ClientManager.getConnectionsByUserId`: all connections whose resolved
`userId` strictly equals the given one (`null` never matches). -/
def getConnectionsByUserId (cm : CMState) (userId : String) : List Nat :=
  (cm.connectedClients.filter (fun e => e.2.userId == some userId)).map
    Prod.fst

/-- `ClientManager.hasUserExceededConnectionLimit`: strictly more than
`MAX_CONNECTIONS_PER_USER` connections carry this `userId`. -/
def hasUserExceededConnectionLimit (cm : CMState) (userId : String) : Bool :=
  (getConnectionsByUserId cm userId).length > MAX_CONNECTIONS_PER_USER

/-- `ClientManager.updateClientUserId`. -/
def updateClientUserId (cm : CMState) (ws : Nat) (userId : String) : CMState :=
  match assocFind cm.connectedClients ws with
  | some cd =>
    ⟨assocSet cm.connectedClients ws { cd with userId := some userId }⟩
  | none => cm

/-- `ClientManager.hasBrowserConnections`: some live connection stores
exactly this fingerprint string. -/
def hasBrowserConnections (cm : CMState) (fingerprint : String) : Bool :=
  cm.connectedClients.any (fun e => e.2.browserFingerprint == some fingerprint)

/-- `ClientManager.removeClient`: delete the connection, then — when it had
a fingerprint and no other live connection shares it — flip the bound
user offline via `updateUserStatus`; the returned flag tells the caller
(`handleClose`) whether to broadcast the user list. -/
def removeClient (cm : CMState) (um : UMState) (clock : Clock) (ws : Nat) :
    Bool × CMState × UMState :=
  let clientData := assocFind cm.connectedClients ws
  let cm' : CMState := ⟨assocErase cm.connectedClients ws⟩
  match clientData with
  | none => (true, cm', um)
  | some cd =>
    match cd.browserFingerprint with
    | none => (true, cm', um)
    | some fp =>
      if fp = "" then (true, cm', um)
      else if hasBrowserConnections cm' fp then (false, cm', um)
      else
        match cd.userId with
        | none => (true, cm', um)
        | some uid =>
          if uid = "" then (true, cm', um)
          else (true, cm', (updateUserStatus um clock uid "offline").2)

/-- Outcome of the connection-cap check in `server.handleIdentity`. -/
inductive LimitOutcome where
  | closedTooMany
  | identified
deriving DecidableEq

/-- The post-resolution step of `server.handleIdentity`: if the resolved
`userId` already exceeds the cap, the socket is closed with code `1013`
and reason `'Too many connections for this user'` and the handler returns
before `updateClientUserId`, so the closing connection's `userId` stays
`null` (its registry entry is then removed by the close handler);
otherwise the connection is marked identified.  The check runs before
`updateClientUserId`, so it counts only the *other* connections already
carrying this `userId`. -/
def identityLimitStep (cm : CMState) (ws : Nat) (resolvedUserId : String) :
    LimitOutcome × CMState :=
  if hasUserExceededConnectionLimit cm resolvedUserId then
    (.closedTooMany, cm)
  else (.identified, updateClientUserId cm ws resolvedUserId)

/-! ## Reaper (`UserManager.pruneInactiveBrowsers`)

`server.setupIntervals` runs the sweep hourly and broadcasts the user list
when the returned prune count is positive. -/

/-- Loop body of the sweep's first phase: for a binding with no live
connection, flip it offline, propagate offline to the stats record (which
`getUserStats` creates when missing) and the `users` record, and schedule
the fingerprint for pruning when `lastActivity` is truthy and older than
`INACTIVE_THRESHOLD`. -/
def pruneStep (cm : CMState) (clock : Clock)
    (acc : List (String × UserData) × List (String × Stats) ×
      List (String × UserRec) × List String)
    (e : String × UserData) :
    List (String × UserData) × List (String × Stats) ×
      List (String × UserRec) × List String :=
  let btuAcc := acc.1
  let stats := acc.2.1
  let users := acc.2.2.1
  let browsersToPrune := acc.2.2.2
  let fp := e.1
  let ud := e.2
  if hasBrowserConnections cm fp then
    (btuAcc ++ [(fp, ud)], stats, users, browsersToPrune)
  else
    let ud' := { ud with status := "offline", lastStatusChange := clock.now }
    let p := getUserStats stats clock ud.userId
    let stats' :=
      if ud.userId ≠ "" then
        assocSet p.2 ud.userId { p.1 with status := "offline" }
      else stats
    let users' :=
      if ud.userId ≠ "" then
        usersAdjust users ud.userId (fun u =>
          { u with status := "offline", lastStatusChange := clock.now })
      else users
    let browsersToPrune' :=
      if ud.lastActivity ≠ 0 ∧
          clock.now - ud.lastActivity > INACTIVE_THRESHOLD then
        browsersToPrune ++ [fp]
      else browsersToPrune
    (btuAcc ++ [(fp, ud')], stats', users', browsersToPrune')

/-- One deletion of the sweep's second phase: look up the collected
fingerprint, delete its binding and — unconditionally — the stats record
of its `userId` (the source reads `browserToUser.get(fingerprint)` without
a presence check; an absent key would throw there and leaves the state
unchanged here). -/
def pruneEvict (s : List (String × UserData) × List (String × Stats))
    (fp : String) : List (String × UserData) × List (String × Stats) :=
  match assocFind s.1 fp with
  | some ud => (assocErase s.1 fp, assocErase s.2 ud.userId)
  | none => s

/-- `UserManager.pruneInactiveBrowsers`: phase one marks and collects (the
loop rewrites each visited binding's value, modelled by rebuilding the
entry list in order); phase two deletes each collected binding and —
unconditionally — the stats record of its `userId`.  Returns the prune
count. -/
def pruneInactiveBrowsers (um : UMState) (cm : CMState) (clock : Clock) :
    Nat × UMState :=
  let r := um.browserToUser.foldl (pruneStep cm clock)
    ([], um.userStats, um.users, [])
  let browsersToPrune := r.2.2.2
  let r2 := browsersToPrune.foldl pruneEvict (r.1, r.2.1)
  (browsersToPrune.length,
   { um with browserToUser := r2.1, users := r.2.2.1, userStats := r2.2 })

/-! ## Lemmas: normalization and resolution store their key -/

theorem takeWhile_append_of_all {p : Char → Bool} {l₁ : List Char}
    (l₂ : List Char) (h : ∀ a ∈ l₁, p a = true) :
    (l₁ ++ l₂).takeWhile p = l₁ ++ l₂.takeWhile p := by
  induction l₁ with
  | nil => simp
  | cons a t ih =>
    have ha := h a (by simp)
    simp only [List.cons_append, List.takeWhile_cons, ha, if_true]
    rw [ih (fun x hx => h x (by simp [hx]))]

theorem trailingDigits_append (r d : List Char)
    (hdig : ∀ c ∈ d, c.isDigit = true) :
    trailingDigits (r ++ '-' :: d) = d.reverse := by
  unfold trailingDigits
  have hrev : (r ++ '-' :: d).reverse = d.reverse ++ '-' :: r.reverse := by
    simp
  rw [hrev, takeWhile_append_of_all _
    (fun a ha => hdig a (List.mem_reverse.mp ha))]
  simp [List.takeWhile_cons]

theorem timestampMatches_append (r d : List Char) (hd9 : 9 ≤ d.length)
    (hdig : ∀ c ∈ d, c.isDigit = true) :
    timestampMatches (r ++ '-' :: d) = true := by
  unfold timestampMatches
  rw [trailingDigits_append r d hdig]
  have hrev : (r ++ '-' :: d).reverse = d.reverse ++ '-' :: r.reverse := by
    simp
  rw [hrev]
  have hdrop : (d.reverse ++ '-' :: r.reverse).drop d.reverse.length =
      '-' :: r.reverse := List.drop_left _ _
  rw [hdrop]
  simp [hd9]

theorem stripTimestamp_append (r d : List Char)
    (hdig : ∀ c ∈ d, c.isDigit = true) :
    stripTimestamp (r ++ '-' :: d) = r := by
  unfold stripTimestamp
  rw [trailingDigits_append r d hdig]
  have hrev : (r ++ '-' :: d).reverse = (d.reverse ++ ['-']) ++ r.reverse := by
    simp
  rw [hrev]
  have hlen : (d.reverse ++ ['-']).length = d.reverse.length + 1 := by simp
  rw [← hlen, List.drop_left, List.reverse_reverse]

theorem getStableFingerprint_append_timestamp (r d : String)
    (hm : timestampMatches r.data = false) (hd9 : 9 ≤ d.data.length)
    (hdig : ∀ c ∈ d.data, c.isDigit = true) :
    getStableFingerprint (r ++ "-" ++ d) = getStableFingerprint r ∧
      getStableFingerprint r = r := by
  have hdata : (r ++ "-" ++ d).data = r.data ++ '-' :: d.data := by
    have h0 : (r ++ "-" ++ d).data = (r.data ++ ['-']) ++ d.data := rfl
    rw [h0, List.append_assoc]
    rfl
  have hr : getStableFingerprint r = r := by
    by_cases hre : r = ""
    · simp [getStableFingerprint, hre]
    · simp [getStableFingerprint, hre, hm]
  refine ⟨?_, hr⟩
  have hne : ¬ (r ++ "-" ++ d) = "" := by
    intro h
    have h2 := congrArg String.data h
    rw [hdata] at h2
    simp at h2
  have hlen9 : 9 ≤ d.data.length := hd9
  unfold getStableFingerprint
  rw [if_neg hne, hdata,
    if_pos (timestampMatches_append r.data d.data hlen9 hdig),
    stripTimestamp_append r.data d.data hdig]
  by_cases hre : r = ""
  · simp [hre]
  · simp [hre, hm]

/-! ## Lemmas: the returning-player path and resolution invariants -/

theorem returningUser_result_userId (um : UMState) (clock : Clock)
    (btu0 : List (String × UserData)) (kFound k : String) (ud : UserData)
    (nm : Option String) (loc : String) :
    (returningUser um clock btu0 kFound k ud nm loc).1.userId = ud.userId := rfl

theorem returningUser_result_isReturning (um : UMState) (clock : Clock)
    (btu0 : List (String × UserData)) (kFound k : String) (ud : UserData)
    (nm : Option String) (loc : String) :
    (returningUser um clock btu0 kFound k ud nm loc).1.isReturning = true := rfl

theorem returningUser_btu (um : UMState) (clock : Clock)
    (btu0 : List (String × UserData)) (kFound k : String) (ud : UserData)
    (nm : Option String) (loc : String) :
    ∃ ud3 : UserData,
      (returningUser um clock btu0 kFound k ud nm loc).2.browserToUser =
        assocSet (assocSet btu0 kFound ud3) k ud3 ∧ ud3.userId = ud.userId := by
  refine ⟨_, rfl, ?_⟩
  simp only [returningUser]
  split_ifs <;> rfl

theorem processUserIdentity_binds (um : UMState) (clock : Clock)
    (freshUserId browserFingerprint : String) (pid nm : Option String)
    (ip org : String) :
    ∃ ud' : UserData,
      assocFind (processUserIdentity um clock freshUserId browserFingerprint
          pid nm ip org).2.browserToUser
        (getStableFingerprint browserFingerprint) = some ud' ∧
      ud'.userId = (processUserIdentity um clock freshUserId browserFingerprint
          pid nm ip org).1.userId := by
  simp only [processUserIdentity]
  split
  · rename_i ud heq
    obtain ⟨ud3, hbtu, huid⟩ :=
      returningUser_btu um clock um.browserToUser _ _ ud nm _
    exact ⟨ud3, by rw [hbtu]; exact assocFind_assocSet_self _ _ _,
      by rw [huid, returningUser_result_userId]⟩
  · rename_i heq
    cases hf : (if optS pid ≠ "" then
        List.find? (fun e => e.2.userId == optS pid) um.browserToUser
      else none) with
    | some e =>
      obtain ⟨k0, ud⟩ := e
      simp only [hf]
      obtain ⟨ud3, hbtu, huid⟩ := returningUser_btu um clock
        (assocSet um.browserToUser (getStableFingerprint browserFingerprint) ud)
        k0 (getStableFingerprint browserFingerprint) ud nm
        (getLocationFromIp ip)
      exact ⟨ud3, by rw [hbtu]; exact assocFind_assocSet_self _ _ _,
        by rw [huid, returningUser_result_userId]⟩
    | none =>
      simp only [hf]
      exact ⟨_, assocFind_assocSet_self _ _ _, rfl⟩

theorem initUserStats_of_has (stats : List (String × Stats)) (clock : Clock)
    (u : String) (fj loc : Option String) (h : assocHas stats u = true) :
    (initUserStats stats clock u fj loc).2 = stats := by
  unfold initUserStats
  cases hf : assocFind stats u with
  | some st => simp only [hf]
  | none => simp [assocHas, hf] at h

theorem akeys_usersAdjust (users : List (String × UserRec)) (k : String)
    (f : UserRec → UserRec) : akeys (usersAdjust users k f) = akeys users := by
  unfold usersAdjust
  cases h : assocFind users k with
  | some v =>
    simp only [h]
    exact akeys_assocSet_of_has _ _ _ (assocHas_of_find h)
  | none => simp only [h]

theorem akeys_assocSet_initUserStats (stats : List (String × Stats))
    (clock : Clock) (u : String) (fj loc : Option String) (v : Stats)
    (h : assocHas stats u = true) :
    akeys (assocSet (initUserStats stats clock u fj loc).2 u v) =
      akeys stats := by
  rw [initUserStats_of_has _ _ _ _ _ h]
  exact akeys_assocSet_of_has _ _ _ h

theorem returningUser_stats_find (um : UMState) (clock : Clock)
    (btu0 : List (String × UserData)) (kFound k : String) (ud : UserData)
    (nm : Option String) (loc : String) :
    ∃ st : Stats,
      assocFind (returningUser um clock btu0 kFound k ud nm loc).2.userStats
        ud.userId = some st ∧ st.status = "online" :=
  ⟨_, assocFind_assocSet_self _ _ _, rfl⟩

theorem returningUser_users_akeys (um : UMState) (clock : Clock)
    (btu0 : List (String × UserData)) (kFound k : String) (ud : UserData)
    (nm : Option String) (loc : String) :
    akeys (returningUser um clock btu0 kFound k ud nm loc).2.users =
      akeys um.users := by
  simp only [returningUser]
  split_ifs <;> simp [akeys_usersAdjust]

theorem returningUser_stats_akeys (um : UMState) (clock : Clock)
    (btu0 : List (String × UserData)) (kFound k : String) (ud : UserData)
    (nm : Option String) (loc : String)
    (h : assocHas um.userStats ud.userId = true) :
    akeys (returningUser um clock btu0 kFound k ud nm loc).2.userStats =
      akeys um.userStats :=
  akeys_assocSet_initUserStats _ _ _ _ _ _ h

theorem processUserIdentity_stats (um : UMState) (clock : Clock)
    (freshUserId browserFingerprint : String) (pid nm : Option String)
    (ip org : String) :
    ∃ st : Stats,
      assocFind (processUserIdentity um clock freshUserId browserFingerprint
          pid nm ip org).2.userStats
        (processUserIdentity um clock freshUserId browserFingerprint
          pid nm ip org).1.userId = some st ∧ st.status = "online" := by
  simp only [processUserIdentity]
  split
  · rename_i ud heq
    rw [returningUser_result_userId]
    exact returningUser_stats_find um clock um.browserToUser _ _ ud nm _
  · rename_i heq
    cases hf : (if optS pid ≠ "" then
        List.find? (fun e => e.2.userId == optS pid) um.browserToUser
      else none) with
    | some e =>
      obtain ⟨k0, ud⟩ := e
      simp only [hf]
      rw [returningUser_result_userId]
      exact returningUser_stats_find um clock _ k0 _ ud nm _
    | none =>
      simp only [hf]
      exact ⟨_, assocFind_assocSet_self _ _ _, rfl⟩

/-! ## Lemmas: further association-list facts -/

theorem assocHas_iff_mem {α β : Type} [DecidableEq α] (l : List (α × β))
    (k : α) : assocHas l k = true ↔ k ∈ akeys l := by
  induction l with
  | nil => simp [assocHas, assocFind, akeys]
  | cons e t ih =>
    obtain ⟨a, b⟩ := e
    by_cases ha : a = k
    · subst ha
      simp [assocHas, assocFind, akeys]
    · simp [assocHas, assocFind, akeys, ha, Ne.symm ha] at ih ⊢
      exact ih

theorem akeys_assocSet_of_not_has {α β : Type} [DecidableEq α]
    (l : List (α × β)) (k : α) (v : β) (h : assocHas l k = false) :
    akeys (assocSet l k v) = akeys l ++ [k] := by
  induction l with
  | nil => simp [assocSet, akeys]
  | cons e t ih =>
    obtain ⟨a, b⟩ := e
    by_cases ha : a = k
    · subst ha
      simp [assocHas, assocFind] at h
    · have ht : assocHas t k = false := by
        simpa [assocHas, assocFind, ha] using h
      simp [assocSet, akeys, ha] at ih ⊢
      exact ih ht

theorem nodup_akeys_assocSet {α β : Type} [DecidableEq α] (l : List (α × β))
    (k : α) (v : β) (h : (akeys l).Nodup) :
    (akeys (assocSet l k v)).Nodup := by
  cases hh : assocHas l k with
  | true => rw [akeys_assocSet_of_has _ _ _ hh]; exact h
  | false =>
    rw [akeys_assocSet_of_not_has _ _ _ hh]
    have hk : k ∉ akeys l := fun hm => by
      simp [(assocHas_iff_mem l k).mpr hm] at hh
    simpa [List.nodup_append] using ⟨h, hk⟩

theorem assocErase_sublist {α β : Type} [DecidableEq α] (l : List (α × β))
    (k : α) : List.Sublist (assocErase l k) l := by
  induction l with
  | nil => simp [assocErase]
  | cons e t ih =>
    obtain ⟨a, b⟩ := e
    by_cases ha : a = k
    · simp only [assocErase, if_pos ha]
      exact List.sublist_cons_self _ _
    · simp only [assocErase, if_neg ha]
      exact ih.cons₂ (a, b)

theorem akeys_assocErase_sublist {α β : Type} [DecidableEq α]
    (l : List (α × β)) (k : α) :
    List.Sublist (akeys (assocErase l k)) (akeys l) :=
  (assocErase_sublist l k).map Prod.fst

theorem assocFind_assocErase_ne {α β : Type} [DecidableEq α]
    (l : List (α × β)) (k k' : α) (h : k' ≠ k) :
    assocFind (assocErase l k) k' = assocFind l k' := by
  induction l with
  | nil => simp [assocErase]
  | cons e t ih =>
    obtain ⟨a, b⟩ := e
    by_cases ha : a = k
    · subst ha
      simp [assocErase, assocFind, Ne.symm h]
    · by_cases ha' : a = k'
      · subst ha'
        simp [assocErase, assocFind, ha]
      · simp [assocErase, assocFind, ha, ha', ih]

theorem akeys_assocErase {α β : Type} [DecidableEq α] (l : List (α × β))
    (k : α) : akeys (assocErase l k) = (akeys l).erase k := by
  induction l with
  | nil => simp [assocErase, akeys]
  | cons e t ih =>
    obtain ⟨a, b⟩ := e
    by_cases ha : a = k
    · subst ha
      simp [assocErase, akeys, List.erase_cons]
    · simp [assocErase, akeys, List.erase_cons, ha] at ih ⊢
      exact ih

theorem not_mem_akeys_assocErase_self {α β : Type} [DecidableEq α]
    (l : List (α × β)) (k : α) (h : (akeys l).Nodup) :
    k ∉ akeys (assocErase l k) := by
  rw [akeys_assocErase]
  exact h.not_mem_erase

theorem mem_akeys_assocErase_of_ne {α β : Type} [DecidableEq α]
    (l : List (α × β)) (k k' : α) (h : k' ≠ k) (hm : k' ∈ akeys l) :
    k' ∈ akeys (assocErase l k) := by
  rw [akeys_assocErase]
  exact (List.mem_erase_of_ne h).mpr hm

theorem assocFind_of_mem_nodup {α β : Type} [DecidableEq α]
    {l : List (α × β)} {k : α} {v : β} (h : (akeys l).Nodup)
    (hm : (k, v) ∈ l) : assocFind l k = some v := by
  induction l with
  | nil => simp at hm
  | cons e t ih =>
    obtain ⟨a, b⟩ := e
    rw [akeys, List.map_cons, List.nodup_cons] at h
    rcases List.mem_cons.mp hm with h1 | h2
    · cases h1
      simp [assocFind]
    · by_cases ha : a = k
      · subst ha
        exact absurd (List.mem_map_of_mem Prod.fst h2) h.1
      · simp only [assocFind, if_neg ha]
        exact ih h.2 h2

theorem akeys_map_val {α β : Type} (l : List (α × β))
    (g : α × β → β) :
    akeys (l.map (fun e => (e.1, g e))) = akeys l := by
  induction l with
  | nil => rfl
  | cons e t ih => simp [akeys] at ih ⊢

/-! ## Lemmas: the broadcast loop invariant -/

theorem mkPresenceEntry_id (ud : UserData) (st : Stats) :
    (mkPresenceEntry ud st).id = ud.userId := rfl

theorem broadcast_fold_inv (clock : Clock) (l : List (String × UserData))
    (acc : List PresenceEntry × List String × List (String × Stats))
    (h1 : acc.1.map PresenceEntry.id = acc.2.1) (h2 : acc.2.1.Nodup)
    (h3 : acc.1.length ≤ MAX_USERS_TO_BROADCAST) :
    (l.foldl (broadcastStep clock) acc).1.map PresenceEntry.id =
        (l.foldl (broadcastStep clock) acc).2.1 ∧
      (l.foldl (broadcastStep clock) acc).2.1.Nodup ∧
      (l.foldl (broadcastStep clock) acc).1.length ≤
        MAX_USERS_TO_BROADCAST := by
  induction l generalizing acc with
  | nil => exact ⟨h1, h2, h3⟩
  | cons e t ih =>
    simp only [List.foldl_cons]
    by_cases hc : e.2.userId ∉ acc.2.1 ∧
      acc.1.length < MAX_USERS_TO_BROADCAST
    · have hstep : broadcastStep clock acc e =
          (acc.1 ++ [mkPresenceEntry e.2
              (getUserStats acc.2.2 clock e.2.userId).1],
            acc.2.1 ++ [e.2.userId],
            (getUserStats acc.2.2 clock e.2.userId).2) := by
        simp only [broadcastStep, if_pos hc]
      rw [hstep]
      apply ih
      · simp [h1, mkPresenceEntry_id]
      · simp [List.nodup_append, h2, hc.1]
      · simpa using hc.2
    · have hstep : broadcastStep clock acc e = acc := by
        simp only [broadcastStep, if_neg hc]
      rw [hstep]
      exact ih _ h1 h2 h3

theorem broadcastUserList_never_truncated (um : UMState) (clock : Clock) :
    (broadcastUserList um clock).1.isTruncated = false ∧
    (broadcastUserList um clock).1.userList =
      (um.browserToUser.foldl (broadcastStep clock)
        ([], [], um.userStats)).1 ∧
    (broadcastUserList um clock).1.userList.length ≤
      MAX_USERS_TO_BROADCAST := by
  obtain ⟨h1, h2, h3⟩ := broadcast_fold_inv clock um.browserToUser
    ([], [], um.userStats) (by simp) (by simp) (by simp [MAX_USERS_TO_BROADCAST])
  have hlen : (um.browserToUser.foldl (broadcastStep clock)
      ([], [], um.userStats)).2.1.length ≤ MAX_USERS_TO_BROADCAST := by
    rw [← h1, List.length_map]
    exact h3
  have hnot : ¬ ((um.browserToUser.foldl (broadcastStep clock)
      ([], [], um.userStats)).2.1.length > MAX_USERS_TO_BROADCAST) :=
    not_lt.mpr hlen
  refine ⟨?_, ?_, ?_⟩
  · simp only [broadcastUserList, if_neg hnot]
    rfl
  · simp only [broadcastUserList, if_neg hnot]
    rfl
  · simp only [broadcastUserList, if_neg hnot]
    exact h3

/-! ## Lemmas: stats-table bookkeeping -/

theorem assocHas_getUserStats_self (stats : List (String × Stats))
    (clock : Clock) (u : String) :
    assocHas (getUserStats stats clock u).2 u = true := by
  unfold getUserStats initUserStats
  cases h : assocFind stats u with
  | some st =>
    simp only [h]
    exact assocHas_of_find h
  | none =>
    simp only [h]
    exact assocHas_of_find (assocFind_assocSet_self _ _ _)

theorem nodup_akeys_getUserStats (stats : List (String × Stats))
    (clock : Clock) (u : String) (h : (akeys stats).Nodup) :
    (akeys (getUserStats stats clock u).2).Nodup := by
  unfold getUserStats initUserStats
  cases hf : assocFind stats u with
  | some st =>
    simp only [hf]
    exact h
  | none =>
    simp only [hf]
    exact nodup_akeys_assocSet _ _ _ h

/-! ## Lemmas: the sweep's two phases

`pruneVal` and `pruneSel` characterize the first-phase loop: what it
rewrites each visited binding to, and whether it schedules the binding for
eviction. -/

/-- Value a binding holds after the sweep's first phase. -/
def pruneVal (cm : CMState) (clock : Clock) (e : String × UserData) :
    String × UserData :=
  (e.1, if hasBrowserConnections cm e.1 then e.2
    else { e.2 with status := "offline", lastStatusChange := clock.now })

/-- Whether the first phase schedules a binding for eviction. -/
def pruneSel (cm : CMState) (clock : Clock) (e : String × UserData) :
    Option String :=
  if hasBrowserConnections cm e.1 then none
  else if e.2.lastActivity ≠ 0 ∧
      clock.now - e.2.lastActivity > INACTIVE_THRESHOLD then some e.1
  else none

theorem prune_fold_btu (cm : CMState) (clock : Clock)
    (l : List (String × UserData))
    (acc : List (String × UserData) × List (String × Stats) ×
      List (String × UserRec) × List String) :
    (l.foldl (pruneStep cm clock) acc).1 =
      acc.1 ++ l.map (pruneVal cm clock) := by
  induction l generalizing acc with
  | nil => simp
  | cons e t ih =>
    simp only [List.foldl_cons, List.map_cons]
    rw [ih]
    have hstep : (pruneStep cm clock acc e).1 =
        acc.1 ++ [pruneVal cm clock e] := by
      by_cases hc : hasBrowserConnections cm e.1 = true
      · simp [pruneStep, pruneVal, hc]
      · simp only [Bool.not_eq_true] at hc
        simp [pruneStep, pruneVal, hc]
    rw [hstep]
    simp

theorem prune_fold_toPrune (cm : CMState) (clock : Clock)
    (l : List (String × UserData))
    (acc : List (String × UserData) × List (String × Stats) ×
      List (String × UserRec) × List String) :
    (l.foldl (pruneStep cm clock) acc).2.2.2 =
      acc.2.2.2 ++ l.filterMap (pruneSel cm clock) := by
  induction l generalizing acc with
  | nil => simp
  | cons e t ih =>
    simp only [List.foldl_cons, List.filterMap_cons]
    rw [ih]
    by_cases hc : hasBrowserConnections cm e.1 = true
    · have hstep : (pruneStep cm clock acc e).2.2.2 = acc.2.2.2 := by
        simp [pruneStep, hc]
      rw [hstep]
      simp [pruneSel, hc]
    · simp only [Bool.not_eq_true] at hc
      by_cases hold : e.2.lastActivity ≠ 0 ∧
          clock.now - e.2.lastActivity > INACTIVE_THRESHOLD
      · have hstep : (pruneStep cm clock acc e).2.2.2 =
            acc.2.2.2 ++ [e.1] := by
          simp [pruneStep, hc, hold]
        rw [hstep]
        simp [pruneSel, hc, hold]
      · have hstep : (pruneStep cm clock acc e).2.2.2 = acc.2.2.2 := by
          simp [pruneStep, hc, hold]
        rw [hstep]
        simp [pruneSel, hc, hold]

theorem prune_fold_users_akeys (cm : CMState) (clock : Clock)
    (l : List (String × UserData))
    (acc : List (String × UserData) × List (String × Stats) ×
      List (String × UserRec) × List String) :
    akeys (l.foldl (pruneStep cm clock) acc).2.2.1 = akeys acc.2.2.1 := by
  induction l generalizing acc with
  | nil => rfl
  | cons e t ih =>
    simp only [List.foldl_cons]
    rw [ih]
    by_cases hc : hasBrowserConnections cm e.1 = true
    · simp [pruneStep, hc]
    · simp only [Bool.not_eq_true] at hc
      by_cases hu : e.2.userId ≠ ""
      · simp [pruneStep, hc, hu, akeys_usersAdjust]
      · simp [pruneStep, hc, hu]

theorem prune_fold_stats_nodup (cm : CMState) (clock : Clock)
    (l : List (String × UserData))
    (acc : List (String × UserData) × List (String × Stats) ×
      List (String × UserRec) × List String)
    (h : (akeys acc.2.1).Nodup) :
    (akeys (l.foldl (pruneStep cm clock) acc).2.1).Nodup := by
  induction l generalizing acc with
  | nil => exact h
  | cons e t ih =>
    simp only [List.foldl_cons]
    apply ih
    by_cases hc : hasBrowserConnections cm e.1 = true
    · simpa [pruneStep, hc] using h
    · simp only [Bool.not_eq_true] at hc
      by_cases hu : e.2.userId ≠ ""
      · have := nodup_akeys_getUserStats acc.2.1 clock e.2.userId h
        simpa [pruneStep, hc, hu] using nodup_akeys_assocSet _ _ _ this
      · simpa [pruneStep, hc, hu] using h

/-! ## Lemmas: the eviction phase -/

theorem evict_fold_btu_sublist (fps : List String)
    (s : List (String × UserData) × List (String × Stats)) :
    List.Sublist (fps.foldl pruneEvict s).1 s.1 := by
  induction fps generalizing s with
  | nil => exact List.Sublist.refl _
  | cons f t ih =>
    simp only [List.foldl_cons]
    refine (ih _).trans ?_
    unfold pruneEvict
    cases h : assocFind s.1 f with
    | some ud =>
      simp only [h]
      exact assocErase_sublist _ _
    | none =>
      simp only [h]
      exact List.Sublist.refl _

theorem evict_fold_stats_keys_sublist (fps : List String)
    (s : List (String × UserData) × List (String × Stats)) :
    List.Sublist (akeys (fps.foldl pruneEvict s).2) (akeys s.2) := by
  induction fps generalizing s with
  | nil => exact List.Sublist.refl _
  | cons f t ih =>
    simp only [List.foldl_cons]
    refine (ih _).trans ?_
    unfold pruneEvict
    cases h : assocFind s.1 f with
    | some ud =>
      simp only [h]
      exact akeys_assocErase_sublist _ _
    | none =>
      simp only [h]
      exact List.Sublist.refl _

theorem evict_fold_removes (fps : List String)
    (s : List (String × UserData) × List (String × Stats))
    (fp u : String) (hmem : fp ∈ fps) (hb : (akeys s.1).Nodup)
    (hs : (akeys s.2).Nodup)
    (hfind : ∃ ud, assocFind s.1 fp = some ud ∧ ud.userId = u) :
    fp ∉ akeys (fps.foldl pruneEvict s).1 ∧
      u ∉ akeys (fps.foldl pruneEvict s).2 := by
  induction fps generalizing s with
  | nil => simp at hmem
  | cons f t ih =>
    simp only [List.foldl_cons]
    by_cases hf : fp = f
    · subst hf
      obtain ⟨ud, hfind, huid⟩ := hfind
      have hevict : pruneEvict s fp =
          (assocErase s.1 fp, assocErase s.2 ud.userId) := by
        simp [pruneEvict, hfind]
      rw [hevict]
      constructor
      · intro hmem2
        exact not_mem_akeys_assocErase_self _ _ hb
          (((evict_fold_btu_sublist t _).map Prod.fst).subset hmem2)
      · intro hmem2
        rw [← huid] at hmem2
        exact not_mem_akeys_assocErase_self _ _ hs
          (huid ▸ (evict_fold_stats_keys_sublist t _).subset (huid ▸ hmem2))
    · have hmem' : fp ∈ t := by
        rcases List.mem_cons.mp hmem with h1 | h2
        · exact absurd h1 hf
        · exact h2
      obtain ⟨ud, hfind, huid⟩ := hfind
      apply ih _ hmem'
      · exact ((evict_fold_btu_sublist [f] s).map Prod.fst).nodup hb
      · exact (evict_fold_stats_keys_sublist [f] s).nodup hs
      · refine ⟨ud, ?_, huid⟩
        unfold pruneEvict
        cases h0 : assocFind s.1 f with
        | some ud0 =>
          simp only [h0]
          rw [assocFind_assocErase_ne _ _ _ hf]
          exact hfind
        | none =>
          simp only [h0]
          exact hfind

theorem evict_fold_preserves (fps : List String)
    (s : List (String × UserData) × List (String × Stats)) (fp : String)
    (hnot : fp ∉ fps) (hmem : fp ∈ akeys s.1) :
    fp ∈ akeys (fps.foldl pruneEvict s).1 := by
  induction fps generalizing s with
  | nil => exact hmem
  | cons f t ih =>
    simp only [List.foldl_cons]
    have hne : fp ≠ f := fun h => hnot (h ▸ List.mem_cons_self f t)
    have hnt : fp ∉ t := fun h => hnot (List.mem_cons_of_mem f h)
    apply ih _ hnt
    unfold pruneEvict
    cases h0 : assocFind s.1 f with
    | some ud =>
      simp only [h0]
      exact mem_akeys_assocErase_of_ne _ _ _ hne hmem
    | none =>
      simp only [h0]
      exact hmem

/-! ## Further small facts about the returning-player result -/

theorem returningUser_result_conflict (um : UMState) (clock : Clock)
    (btu0 : List (String × UserData)) (kFound k : String) (ud : UserData)
    (nm : Option String) (loc : String) :
    (returningUser um clock btu0 kFound k ud nm loc).1.conflictDetected =
      false := rfl

theorem returningUser_result_status (um : UMState) (clock : Clock)
    (btu0 : List (String × UserData)) (kFound k : String) (ud : UserData)
    (nm : Option String) (loc : String) :
    (returningUser um clock btu0 kFound k ud nm loc).1.status = "online" :=
  rfl

/-! ## Concrete states used by counterexamples and witnesses -/

/-- A fixed clock for the concrete scenarios. -/
def clockW : Clock := ⟨1000000, "2025-01-01T00:00:00.000Z"⟩

/-- A registry entry with the given resolved id and fingerprint. -/
def mkClient (u fp : Option String) : ClientData :=
  ⟨"c", u, fp, "ip", "origin", 0, 0⟩

/-- Five connections already identified as `u1`, plus the still-unidentified
sixth connection (handle 6) whose identity message just resolved to `u1`. -/
def cmFive : CMState :=
  ⟨[(1, mkClient (some "u1") (some "f1")), (2, mkClient (some "u1") (some "f2")),
    (3, mkClient (some "u1") (some "f3")), (4, mkClient (some "u1") (some "f4")),
    (5, mkClient (some "u1") (some "f5")), (6, mkClient none (some "f6"))]⟩

/-- Six connections already identified as `u1`, plus the still-unidentified
seventh connection (handle 7). -/
def cmSix : CMState :=
  ⟨[(1, mkClient (some "u1") (some "f1")), (2, mkClient (some "u1") (some "f2")),
    (3, mkClient (some "u1") (some "f3")), (4, mkClient (some "u1") (some "f4")),
    (5, mkClient (some "u1") (some "f5")), (6, mkClient (some "u1") (some "f6")),
    (7, mkClient none (some "f7"))]⟩

/-! ## Claim C1 -/

/-- Claim C1, counterexample to "the 6th concurrent connection for one
playerId is closed immediately after identity resolution": with five live
connections already identified as `u1`, the sixth connection's
post-resolution check does *not* close it — the check runs before
`updateClientUserId`, so it counts only the other five — and the
connection remains registered with its `userId` set. -/
theorem C1_counterexample :
    (identityLimitStep cmFive 6 "u1").1 = LimitOutcome.identified ∧
    (assocFind (identityLimitStep cmFive 6 "u1").2.connectedClients 6).map
      ClientData.userId = some (some "u1") ∧
    (getConnectionsByUserId cmFive "u1").length = 5 := by decide

/-- Claim C1 (amended): after identity resolution the connection is closed
with the distinct reason (code 1013, 'Too many connections for this user')
and left unidentified exactly when the resolved `playerId` already has
more than `MAX_CONNECTIONS_PER_USER` (5) *other* identified live
connections; with at most 5 the connection stays open and becomes
identified.  Hence the 6th concurrent connection is admitted and the 7th
is the first to be closed, the earlier ones remaining open (the registry
is unchanged in the closed case). -/
theorem C1_connection_cap (cm : CMState) (ws : Nat) (u : String) :
    ((getConnectionsByUserId cm u).length > MAX_CONNECTIONS_PER_USER →
      (identityLimitStep cm ws u).1 = LimitOutcome.closedTooMany ∧
      (identityLimitStep cm ws u).2 = cm) ∧
    ((getConnectionsByUserId cm u).length ≤ MAX_CONNECTIONS_PER_USER →
      (identityLimitStep cm ws u).1 = LimitOutcome.identified ∧
      (identityLimitStep cm ws u).2 = updateClientUserId cm ws u) := by
  constructor <;> intro h
  · have hb : hasUserExceededConnectionLimit cm u = true := by
      simp [hasUserExceededConnectionLimit, h]
    simp [identityLimitStep, hb]
  · have hb : hasUserExceededConnectionLimit cm u = false := by
      simp only [hasUserExceededConnectionLimit, decide_eq_false_iff_not]
      omega
    simp [identityLimitStep, hb]

/-- Witness for C1: the 7th connection (six others identified) is closed
and the 6th (five others identified) is admitted. -/
theorem C1_connection_cap_witness :
    (identityLimitStep cmSix 7 "u1").1 = LimitOutcome.closedTooMany ∧
    (identityLimitStep cmFive 6 "u1").1 = LimitOutcome.identified :=
  ⟨((C1_connection_cap cmSix 7 "u1").1 (by decide)).1,
   ((C1_connection_cap cmFive 6 "u1").2 (by decide)).1⟩

/-! ## Claim C7 -/

/-- Claim C7, counterexample to "a raw fingerprint and the same
fingerprint with a trailing timestamp suffix appended resolve to the same
binding key": normalization strips only one suffix, so a raw fingerprint
that itself ends in dash-plus-nine-digits normalizes differently from its
suffixed variant. -/
theorem C7_counterexample :
    getStableFingerprint "abc-111111111" = "abc" ∧
    getStableFingerprint "abc-111111111-222222222" = "abc-111111111" ∧
    ("222222222".data.all Char.isDigit = true ∧
      9 ≤ "222222222".data.length) ∧
    getStableFingerprint "abc-111111111" ≠
      getStableFingerprint "abc-111111111-222222222" := by decide

/-- Claim C7 (amended): resolution always looks up and stores under the
normalized fingerprint — after any `processUserIdentity` call the
normalized key is bound, to the resolved `playerId` — and appending a
"dash + ≥9 digits" suffix leaves the binding key unchanged provided the
raw fingerprint does not itself end in such a suffix (normalization
strips exactly one trailing suffix). -/
theorem C7_normalization :
    (∀ (um : UMState) (clock : Clock) (freshUserId browserFingerprint : String)
      (pid nm : Option String) (ip org : String),
      ∃ ud' : UserData,
        assocFind (processUserIdentity um clock freshUserId browserFingerprint
            pid nm ip org).2.browserToUser
          (getStableFingerprint browserFingerprint) = some ud' ∧
        ud'.userId = (processUserIdentity um clock freshUserId
            browserFingerprint pid nm ip org).1.userId) ∧
    (∀ r d : String, timestampMatches r.data = false → 9 ≤ d.data.length →
      (∀ c ∈ d.data, c.isDigit = true) →
      getStableFingerprint (r ++ "-" ++ d) = getStableFingerprint r) :=
  ⟨fun um clock fresh raw pid nm ip org =>
    processUserIdentity_binds um clock fresh raw pid nm ip org,
   fun r d hm h9 hd => (getStableFingerprint_append_timestamp r d hm h9 hd).1⟩

/-- Witness for C7: the normalized key is bound after resolving a suffixed
fingerprint from the empty state, and appending a fresh timestamp suffix
to a suffix-free fingerprint does not change the key. -/
theorem C7_normalization_witness :
    (∃ ud' : UserData,
      assocFind (processUserIdentity ⟨[], [], 1, []⟩ clockW "user-w"
          "fp-abc-1700000000000" (some "u1") (some "Alice") "ip"
          "o").2.browserToUser
        (getStableFingerprint "fp-abc-1700000000000") = some ud' ∧
      ud'.userId = (processUserIdentity ⟨[], [], 1, []⟩ clockW "user-w"
          "fp-abc-1700000000000" (some "u1") (some "Alice") "ip"
          "o").1.userId) ∧
    getStableFingerprint ("fp-abc" ++ "-" ++ "1700000000000") =
      getStableFingerprint "fp-abc" :=
  ⟨(C7_normalization.1 ⟨[], [], 1, []⟩ clockW "user-w" "fp-abc-1700000000000"
      (some "u1") (some "Alice") "ip" "o"),
   C7_normalization.2 "fp-abc" "1700000000000" (by decide) (by decide)
     (by decide)⟩

/-! ## Claim C10 -/

/-- Claim C10: for a `playerId` absent from the stats table, `getUserStats`
silently creates and stores the default record — status `"online"`, level
1, health 1000, zeroed counters — keyed by that id (the key list grows by
exactly that id), and `updatePlayerGameStat` and `updateUserStats` likewise
succeed (never reject) and leave the id present in the table. -/
theorem C10_stats_autocreate (stats : List (String × Stats)) (clock : Clock)
    (u stat action : String) (v : JVal) (amount : Int)
    (h : assocFind stats u = none) :
    (getUserStats stats clock u).1 = defaultStats clock.nowIso "Unknown" ∧
    assocFind (getUserStats stats clock u).2 u =
      some (defaultStats clock.nowIso "Unknown") ∧
    akeys (getUserStats stats clock u).2 = akeys stats ++ [u] ∧
    (defaultStats clock.nowIso "Unknown").status = "online" ∧
    (defaultStats clock.nowIso "Unknown").level = JVal.num 1 ∧
    (defaultStats clock.nowIso "Unknown").health = JVal.num 1000 ∧
    (defaultStats clock.nowIso "Unknown").meteorsSent = 0 ∧
    (defaultStats clock.nowIso "Unknown").objectsShot = 0 ∧
    (defaultStats clock.nowIso "Unknown").damageDealt = 0 ∧
    (defaultStats clock.nowIso "Unknown").damageTaken = 0 ∧
    (defaultStats clock.nowIso "Unknown").kills = 0 ∧
    (defaultStats clock.nowIso "Unknown").deaths = 0 ∧
    (defaultStats clock.nowIso "Unknown").projectilesFired = 0 ∧
    (defaultStats clock.nowIso "Unknown").projectileHits = 0 ∧
    ((updatePlayerGameStat stats clock u stat v).1.isSome = true ∧
      assocHas (updatePlayerGameStat stats clock u stat v).2 u = true) ∧
    (assocHas (updateUserStats stats clock u action amount).2 u = true) := by
  have hnothas : assocHas stats u = false := by simp [assocHas, h]
  have hget1 : (getUserStats stats clock u).1 =
      defaultStats clock.nowIso "Unknown" := by
    simp [getUserStats, initUserStats, h, jsOrStr, optS]
  have hget2 : (getUserStats stats clock u).2 =
      assocSet stats u (defaultStats clock.nowIso "Unknown") := by
    simp [getUserStats, initUserStats, h, jsOrStr, optS]
  refine ⟨hget1, ?_, ?_, rfl, rfl, rfl, rfl, rfl, rfl, rfl, rfl, rfl, rfl,
    rfl, ⟨?_, ?_⟩, ?_⟩
  · rw [hget2]
    exact assocFind_assocSet_self _ _ _
  · rw [hget2]
    exact akeys_assocSet_of_not_has _ _ _ hnothas
  · by_cases hs : stat ∈ allowedStats <;> simp [updatePlayerGameStat, hs]
  · by_cases hs : stat ∈ allowedStats
    · simp only [updatePlayerGameStat, if_pos hs]
      exact assocHas_of_find (assocFind_assocSet_self _ _ _)
    · simp only [updatePlayerGameStat, if_neg hs]
      exact assocHas_getUserStats_self _ _ _
  · exact assocHas_of_find (assocFind_assocSet_self _ _ _)

/-- Witness for C10 on the empty stats table. -/
theorem C10_stats_autocreate_witness :
    (getUserStats [] clockW "ux").1 =
      defaultStats clockW.nowIso "Unknown" ∧
    assocFind (getUserStats [] clockW "ux").2 "ux" =
      some (defaultStats clockW.nowIso "Unknown") ∧
    akeys (getUserStats [] clockW "ux").2 = akeys ([] : List (String × Stats)) ++ ["ux"] ∧
    (defaultStats clockW.nowIso "Unknown").status = "online" ∧
    (defaultStats clockW.nowIso "Unknown").level = JVal.num 1 ∧
    (defaultStats clockW.nowIso "Unknown").health = JVal.num 1000 ∧
    (defaultStats clockW.nowIso "Unknown").meteorsSent = 0 ∧
    (defaultStats clockW.nowIso "Unknown").objectsShot = 0 ∧
    (defaultStats clockW.nowIso "Unknown").damageDealt = 0 ∧
    (defaultStats clockW.nowIso "Unknown").damageTaken = 0 ∧
    (defaultStats clockW.nowIso "Unknown").kills = 0 ∧
    (defaultStats clockW.nowIso "Unknown").deaths = 0 ∧
    (defaultStats clockW.nowIso "Unknown").projectilesFired = 0 ∧
    (defaultStats clockW.nowIso "Unknown").projectileHits = 0 ∧
    ((updatePlayerGameStat [] clockW "ux" "level" (JVal.num 7)).1.isSome =
      true ∧
      assocHas (updatePlayerGameStat [] clockW "ux" "level"
        (JVal.num 7)).2 "ux" = true) ∧
    (assocHas (updateUserStats [] clockW "ux" "meteorSent" 1).2 "ux" =
      true) :=
  C10_stats_autocreate [] clockW "ux" "level" "meteorSent" (JVal.num 7) 1
    (by decide)

/-! ## Claims C2 and C4 -/

/-- 101 bindings with pairwise-distinct `userId`s. -/
def bigBinding (i : Nat) : String × UserData :=
  (s!"f{i}", ⟨s!"u{i}", "n", 1, 1, "fj", "L", "online", 1⟩)

/-- A `UserManager` state holding 101 bindings for 101 distinct players. -/
def umHundredOne : UMState := ⟨[], (List.range 101).map bigBinding, 1, []⟩

set_option maxRecDepth 4000

/-- Claim C2: every presence broadcast does contain at most
`MAX_USERS_TO_BROADCAST` (100) entries, but the truncation envelope never
fires: `seenUserIds` is only grown under the same guard that caps
`activeUsers`, so `seenUserIds.size` can never exceed the cap and the
message is always the plain list.  In the concrete state with 101 distinct
players the broadcast is the plain 100-entry array with no truncation
marker and no true total — the overflow indicator the claim requires is
silently dropped. -/
theorem C2_broadcast_cap_truncation_dead :
    (∀ (um : UMState) (clock : Clock),
      (broadcastUserList um clock).1.isTruncated = false ∧
      (broadcastUserList um clock).1.userList.length ≤
        MAX_USERS_TO_BROADCAST) ∧
    ((umHundredOne.browserToUser.map (fun e => e.2.userId)).dedup.length =
      101 ∧
     (broadcastUserList umHundredOne clockW).1.isTruncated = false ∧
     (broadcastUserList umHundredOne clockW).1.userList.length = 100) := by
  constructor
  · intro um clock
    obtain ⟨h1, _, h3⟩ := broadcastUserList_never_truncated um clock
    exact ⟨h1, h3⟩
  · decide

/-- Claim C4: in every broadcast presence list the entries carry
pairwise-distinct `playerId`s — the number of distinct ids equals the
number of entries — even when several bindings reference the same
`playerId` (the `seenUserIds` guard skips duplicates). -/
theorem C4_presence_dedup (um : UMState) (clock : Clock) :
    ((broadcastUserList um clock).1.userList.map PresenceEntry.id).Nodup ∧
    ((broadcastUserList um clock).1.userList.map
      PresenceEntry.id).dedup.length =
      (broadcastUserList um clock).1.userList.length := by
  obtain ⟨hinv1, hinv2, _⟩ := broadcast_fold_inv clock um.browserToUser
    ([], [], um.userStats) (by simp) (by simp)
    (by simp [MAX_USERS_TO_BROADCAST])
  obtain ⟨_, huser, _⟩ := broadcastUserList_never_truncated um clock
  have hnodup : ((broadcastUserList um clock).1.userList.map
      PresenceEntry.id).Nodup := by
    rw [huser, hinv1]
    exact hinv2
  refine ⟨hnodup, ?_⟩
  rw [hnodup.dedup, List.length_map]

/-! ## Claims C5 and C6 -/

/-- Resolving a fingerprint whose normalized key is already bound takes
the exact-hit returning path: same `playerId`, `isReturning`, and no new
key in any of the three tables (given the player's stats record already
exists, as every resolution guarantees). -/
theorem resolve_on_bound_key (um : UMState) (clock : Clock)
    (freshUserId raw : String) (pid : Option String) (ip org : String)
    (ud : UserData)
    (hfind : assocFind um.browserToUser (getStableFingerprint raw) = some ud)
    (hstats : assocHas um.userStats ud.userId = true) :
    (processUserIdentity um clock freshUserId raw pid none ip org).1.userId =
        ud.userId ∧
    (processUserIdentity um clock freshUserId raw pid none ip
        org).1.isReturning = true ∧
    akeys (processUserIdentity um clock freshUserId raw pid none ip
        org).2.browserToUser = akeys um.browserToUser ∧
    akeys (processUserIdentity um clock freshUserId raw pid none ip
        org).2.users = akeys um.users ∧
    akeys (processUserIdentity um clock freshUserId raw pid none ip
        org).2.userStats = akeys um.userStats := by
  simp only [processUserIdentity, hfind]
  refine ⟨returningUser_result_userId _ _ _ _ _ _ _ _,
    returningUser_result_isReturning _ _ _ _ _ _ _ _, ?_,
    returningUser_users_akeys _ _ _ _ _ _ _ _,
    returningUser_stats_akeys _ _ _ _ _ _ _ _ hstats⟩
  obtain ⟨ud3, hbtu, _⟩ := returningUser_btu um clock um.browserToUser
    (getStableFingerprint raw) (getStableFingerprint raw) ud none
    (getLocationFromIp ip)
  rw [hbtu]
  have h1 : assocHas um.browserToUser (getStableFingerprint raw) = true :=
    assocHas_of_find hfind
  have h2 : assocHas (assocSet um.browserToUser (getStableFingerprint raw)
      ud3) (getStableFingerprint raw) = true :=
    assocHas_of_find (assocFind_assocSet_self _ _ _)
  rw [akeys_assocSet_of_has _ _ _ h2, akeys_assocSet_of_has _ _ _ h1]

/-- Claim C5: resolving the same raw fingerprint (hence the same
normalized fingerprint) twice, the second time without a name, yields the
same `playerId`, reports `isReturning`, and leaves the key sets of the
binding, identity and statistics tables unchanged — no second
PlayerIdentity is created. -/
theorem C5_resolution_idempotent (um : UMState) (clock1 clock2 : Clock)
    (fresh1 fresh2 raw : String) (pid1 pid2 nm1 : Option String)
    (ip1 org1 ip2 org2 : String) :
    (processUserIdentity (processUserIdentity um clock1 fresh1 raw pid1 nm1
        ip1 org1).2 clock2 fresh2 raw pid2 none ip2 org2).1.userId =
      (processUserIdentity um clock1 fresh1 raw pid1 nm1 ip1 org1).1.userId ∧
    (processUserIdentity (processUserIdentity um clock1 fresh1 raw pid1 nm1
        ip1 org1).2 clock2 fresh2 raw pid2 none ip2
        org2).1.isReturning = true ∧
    akeys (processUserIdentity (processUserIdentity um clock1 fresh1 raw pid1
        nm1 ip1 org1).2 clock2 fresh2 raw pid2 none ip2
        org2).2.browserToUser =
      akeys (processUserIdentity um clock1 fresh1 raw pid1 nm1 ip1
        org1).2.browserToUser ∧
    akeys (processUserIdentity (processUserIdentity um clock1 fresh1 raw pid1
        nm1 ip1 org1).2 clock2 fresh2 raw pid2 none ip2 org2).2.users =
      akeys (processUserIdentity um clock1 fresh1 raw pid1 nm1 ip1
        org1).2.users ∧
    akeys (processUserIdentity (processUserIdentity um clock1 fresh1 raw pid1
        nm1 ip1 org1).2 clock2 fresh2 raw pid2 none ip2 org2).2.userStats =
      akeys (processUserIdentity um clock1 fresh1 raw pid1 nm1 ip1
        org1).2.userStats := by
  obtain ⟨ud, hfind, huid⟩ :=
    processUserIdentity_binds um clock1 fresh1 raw pid1 nm1 ip1 org1
  obtain ⟨st, hst, _⟩ :=
    processUserIdentity_stats um clock1 fresh1 raw pid1 nm1 ip1 org1
  have hstats : assocHas (processUserIdentity um clock1 fresh1 raw pid1 nm1
      ip1 org1).2.userStats ud.userId = true := by
    rw [huid]
    exact assocHas_of_find hst
  obtain ⟨h1, h2, h3, h4, h5⟩ := resolve_on_bound_key
    (processUserIdentity um clock1 fresh1 raw pid1 nm1 ip1 org1).2 clock2
    fresh2 raw pid2 ip2 org2 ud hfind hstats
  exact ⟨by rw [h1, huid], h2, h3, h4, h5⟩

/-- Claim C6: a previously-unseen normalized fingerprint presented with a
claimed `playerId` that some existing binding references resolves to that
same `playerId` (fingerprint drift, step 2), a binding for the new
normalized fingerprint pointing at that `playerId` is registered, and no
new identity is created (the identity table's key set is unchanged). -/
theorem C6_fingerprint_drift (um : UMState) (clock : Clock)
    (freshUserId raw p : String) (nm : Option String) (ip org : String)
    (hnone : assocFind um.browserToUser (getStableFingerprint raw) = none)
    (hp : p ≠ "") (hex : ∃ e ∈ um.browserToUser, e.2.userId = p) :
    (processUserIdentity um clock freshUserId raw (some p) nm ip
        org).1.userId = p ∧
    (∃ ud' : UserData,
      assocFind (processUserIdentity um clock freshUserId raw (some p) nm ip
          org).2.browserToUser (getStableFingerprint raw) = some ud' ∧
      ud'.userId = p) ∧
    akeys (processUserIdentity um clock freshUserId raw (some p) nm ip
        org).2.users = akeys um.users := by
  have hfs : ∃ e0, List.find? (fun e => e.2.userId == p)
      um.browserToUser = some e0 := by
    rcases hex with ⟨e, he, hep⟩
    cases hf : List.find? (fun e => e.2.userId == p) um.browserToUser with
    | some e0 => exact ⟨e0, rfl⟩
    | none =>
      have := List.find?_eq_none.mp hf e he
      simp [hep] at this
  obtain ⟨e0, hf⟩ := hfs
  have he0 : e0.2.userId = p := by
    have := List.find?_some hf
    simpa using this
  have hopt : optS (some p) = p := rfl
  simp only [processUserIdentity, hnone, hopt, if_pos hp, hf]
  refine ⟨?_, ?_, returningUser_users_akeys _ _ _ _ _ _ _ _⟩
  · rw [returningUser_result_userId]
    exact he0
  · obtain ⟨ud3, hbtu, huid⟩ := returningUser_btu um clock
      (assocSet um.browserToUser (getStableFingerprint raw) e0.2) e0.1
      (getStableFingerprint raw) e0.2 nm (getLocationFromIp ip)
    exact ⟨ud3, by rw [hbtu]; exact assocFind_assocSet_self _ _ _,
      by rw [huid]; exact he0⟩

/-- Binding record for the concrete drift scenario. -/
def udDrift : UserData := ⟨"u1", "Alice", 5, 5, "fj", "Earth", "online", 5⟩

/-- Identity record for the concrete drift scenario. -/
def urDrift : UserRec :=
  ⟨"u1", "Alice", "ip", "o", 5, "fj", "Earth", "online", 5⟩

/-- State with one identity `u1` bound to fingerprint `fp-abc`. -/
def umDrift : UMState := ⟨[("u1", urDrift)], [("fp-abc", udDrift)], 1, []⟩

/-- Witness for C6: `fp-xyz` is unseen, `u1` is claimed and referenced by
the binding for `fp-abc`; resolution returns `u1` and binds `fp-xyz`. -/
theorem C6_fingerprint_drift_witness :
    (processUserIdentity umDrift clockW "user-w" "fp-xyz" (some "u1") none
        "ip" "o").1.userId = "u1" ∧
    (∃ ud' : UserData,
      assocFind (processUserIdentity umDrift clockW "user-w" "fp-xyz"
          (some "u1") none "ip" "o").2.browserToUser
        (getStableFingerprint "fp-xyz") = some ud' ∧
      ud'.userId = "u1") ∧
    akeys (processUserIdentity umDrift clockW "user-w" "fp-xyz" (some "u1")
        none "ip" "o").2.users = akeys umDrift.users :=
  C6_fingerprint_drift umDrift clockW "user-w" "fp-xyz" "u1" none "ip" "o"
    (by decide) (by decide) ⟨("fp-abc", udDrift), by decide, by decide⟩

/-! ## Claim C3 -/

/-- Claim C3, counterexample: the binding for `fp1` references `u1` and is
active (inactive for far less than 7 days), and the arriving fingerprint
`fp2` is unseen, so the claim requires the claimed id `u1` to be rejected
(a fresh id minted) and the caller informed via `conflictDetected = true`.
The code instead honors `u1` — the drift step adopts any binding carrying
the claimed id before the conflict check can run — and returns
`conflictDetected` false (the returning result has no such field and the
caller reads it as false). -/
theorem C3_counterexample :
    ((processUserIdentity umDrift clockW "user-fresh" "fp2" (some "u1")
        none "ip" "o").1.userId = "u1" ∧
     (processUserIdentity umDrift clockW "user-fresh" "fp2" (some "u1")
        none "ip" "o").1.isReturning = true ∧
     (processUserIdentity umDrift clockW "user-fresh" "fp2" (some "u1")
        none "ip" "o").1.conflictDetected = false) ∧
    (∃ e ∈ umDrift.browserToUser, e.2.userId = "u1" ∧
      clockW.now - e.2.lastActivity < MAX_INACTIVE_TIME) ∧
    assocFind umDrift.browserToUser (getStableFingerprint "fp2") =
      none := by decide

/-- Claim C3 (amended): when the normalized fingerprint is unseen, a
supplied claimed `playerId` is *always* honored and `conflictDetected` is
always false: if some binding references the claimed id, the
fingerprint-drift step (step 2) adopts it before the new-player validation
can run, and otherwise the new-player conflict scan finds no conflicting
binding at all — the 7-day arbitration branch is unreachable, and the
connection is never rejected for a conflict. -/
theorem C3_conflict_always_honored (um : UMState) (clock : Clock)
    (freshUserId raw p : String) (nm : Option String) (ip org : String)
    (hnone : assocFind um.browserToUser (getStableFingerprint raw) = none)
    (hp : p ≠ "") :
    (processUserIdentity um clock freshUserId raw (some p) nm ip
        org).1.userId = p ∧
    (processUserIdentity um clock freshUserId raw (some p) nm ip
        org).1.conflictDetected = false := by
  have hopt : optS (some p) = p := rfl
  simp only [processUserIdentity, hnone, hopt, if_pos hp]
  cases hf : List.find? (fun e => e.2.userId == p) um.browserToUser with
  | some e0 =>
    simp only [hf]
    have he0 : e0.2.userId = p := by
      have := List.find?_some hf
      simpa using this
    exact ⟨by rw [returningUser_result_userId]; exact he0,
      returningUser_result_conflict _ _ _ _ _ _ _ _⟩
  | none =>
    simp only [hf]
    have hfilter : um.browserToUser.filter (fun e => e.2.userId == p) =
        [] := by
      rw [List.filter_eq_nil_iff]
      intro e he
      have := List.find?_eq_none.mp hf e he
      simpa using this
    simp [hfilter, hp]

/-- Witness for C3: resolving an unseen fingerprint with claimed id `u9`
in the empty state honors the id with no conflict flag. -/
theorem C3_conflict_always_honored_witness :
    (processUserIdentity ⟨[], [], 1, []⟩ clockW "user-w" "fp-new"
        (some "u9") none "ip" "o").1.userId = "u9" ∧
    (processUserIdentity ⟨[], [], 1, []⟩ clockW "user-w" "fp-new"
        (some "u9") none "ip" "o").1.conflictDetected = false :=
  C3_conflict_always_honored ⟨[], [], 1, []⟩ clockW "user-w" "fp-new" "u9"
    none "ip" "o" (by decide) (by decide)

/-- `returningUser_stats_find`, restated for a named `userId`. -/
theorem returningUser_stats_find' (um : UMState) (clock : Clock)
    (btu0 : List (String × UserData)) (kFound k : String) (ud : UserData)
    (nm : Option String) (loc : String) (u : String) (h : ud.userId = u) :
    ∃ st : Stats,
      assocFind (returningUser um clock btu0 kFound k ud nm loc).2.userStats
        u = some st ∧ st.status = "online" := by
  subst h
  exact returningUser_stats_find um clock btu0 kFound k ud nm loc

/-! ## Claim C8 -/

/-- Claim C8: on removal of an identified connection — when no other live
connection stores the same fingerprint string, the registry flips the
bound identity offline (first binding carrying the `userId`, plus the
stats record) and reports that a presence broadcast must be issued
(`handleClose` broadcasts exactly when the returned flag is true); when a
sibling connection shares the fingerprint, the user-manager state is
untouched and no broadcast is requested; and resolving a new connection
whose fingerprint normalizes to the flipped binding's key returns the same
player marked Online again, with the stats status back to `"online"`. -/
theorem C8_status_derivation (cm : CMState) (um : UMState)
    (clock clock2 : Clock) (ws : Nat) (cd : ClientData) (fp u kb : String)
    (udb : UserData)
    (hcd : assocFind cm.connectedClients ws = some cd)
    (hfp : cd.browserFingerprint = some fp) (hfpne : fp ≠ "")
    (huid : cd.userId = some u) (hune : u ≠ "")
    (hfirst : um.browserToUser.find? (fun e => e.2.userId == u) =
      some (kb, udb)) (hkbne : kb ≠ "") :
    (hasBrowserConnections ⟨assocErase cm.connectedClients ws⟩ fp = false →
      (removeClient cm um clock ws).1 = true ∧
      assocFind (removeClient cm um clock ws).2.2.browserToUser kb =
        some { udb with status := "offline", lastStatusChange := clock.now } ∧
      (∃ st : Stats,
        assocFind (removeClient cm um clock ws).2.2.userStats u = some st ∧
        st.status = "offline") ∧
      (∀ (raw fresh ip org : String) (pid nm : Option String),
        getStableFingerprint raw = kb →
        (processUserIdentity (removeClient cm um clock ws).2.2 clock2 fresh
            raw pid nm ip org).1.userId = u ∧
        (processUserIdentity (removeClient cm um clock ws).2.2 clock2 fresh
            raw pid nm ip org).1.status = "online" ∧
        (∃ st : Stats,
          assocFind (processUserIdentity (removeClient cm um clock
              ws).2.2 clock2 fresh raw pid nm ip org).2.userStats u =
            some st ∧ st.status = "online"))) ∧
    (hasBrowserConnections ⟨assocErase cm.connectedClients ws⟩ fp = true →
      (removeClient cm um clock ws).1 = false ∧
      (removeClient cm um clock ws).2.2 = um) := by
  have hudb : udb.userId = u := by
    have := List.find?_some hfirst
    simpa using this
  constructor
  · intro hno
    have hupd : updateUserStatus um clock u "offline" =
        (true, { um with
          browserToUser := assocSet um.browserToUser kb
            { udb with status := "offline", lastStatusChange := clock.now }
          users := usersAdjust um.users u (fun ur =>
            { ur with status := "offline", lastStatusChange := clock.now })
          userStats := assocSet (getUserStats um.userStats clock u).2 u
            { (getUserStats um.userStats clock u).1 with
              status := "offline" } }) := by
      simp only [updateUserStatus, hfirst]
      simp [hkbne]
    have hred : removeClient cm um clock ws =
        (true, ⟨assocErase cm.connectedClients ws⟩,
          (updateUserStatus um clock u "offline").2) := by
      simp only [removeClient, hcd, hfp, huid]
      simp [hfpne, hune, hno]
    rw [hred, hupd]
    refine ⟨rfl, assocFind_assocSet_self _ _ _,
      ⟨_, assocFind_assocSet_self _ _ _, rfl⟩, ?_⟩
    intro raw fresh ip org pid nm hkey
    have hfind' : assocFind (assocSet um.browserToUser kb
        { udb with status := "offline", lastStatusChange := clock.now })
        (getStableFingerprint raw) = some
        { udb with status := "offline", lastStatusChange := clock.now } := by
      rw [hkey]
      exact assocFind_assocSet_self _ _ _
    simp only [processUserIdentity, hfind']
    refine ⟨?_, returningUser_result_status _ _ _ _ _ _ _ _, ?_⟩
    · rw [returningUser_result_userId]
      exact hudb
    · exact returningUser_stats_find' _ _ _ _ _ _ _ _ _ hudb
  · intro hyes
    have hred : removeClient cm um clock ws =
        (false, ⟨assocErase cm.connectedClients ws⟩, um) := by
      simp only [removeClient, hcd, hfp]
      simp [hfpne, hyes]
    rw [hred]
    exact ⟨rfl, rfl⟩

/-- Registry with a single connection identified as `u1` on `fp-abc`. -/
def cmRemove : CMState := ⟨[(1, mkClient (some "u1") (some "fp-abc"))]⟩

/-- Witness for C8: removing the sole connection for `fp-abc` requests a
broadcast and flips `u1` offline; resolving `fp-abc` again comes back
online. -/
theorem C8_status_derivation_witness :
    (removeClient cmRemove umDrift clockW 1).1 = true ∧
    (∃ st : Stats,
      assocFind (removeClient cmRemove umDrift clockW 1).2.2.userStats
        "u1" = some st ∧ st.status = "offline") ∧
    (processUserIdentity (removeClient cmRemove umDrift clockW 1).2.2 clockW
        "user-w" "fp-abc" none none "ip" "o").1.status = "online" := by
  have h := C8_status_derivation cmRemove umDrift clockW clockW 1
    (mkClient (some "u1") (some "fp-abc")) "fp-abc" "u1" "fp-abc" udDrift
    (by decide) (by decide) (by decide) (by decide) (by decide) (by decide)
    (by decide)
  have ha := h.1 (by decide)
  exact ⟨ha.1, ha.2.2.1,
    (ha.2.2.2 "fp-abc" "user-w" "ip" "o" none none (by decide)).2.1⟩

/-! ## Claim C9 -/

theorem eq_of_mem_akeys_nodup {α β : Type} [DecidableEq α]
    {l : List (α × β)} (h : (akeys l).Nodup) {a b : α × β} (ha : a ∈ l)
    (hb : b ∈ l) (hk : a.1 = b.1) : a = b := by
  have h1 : assocFind l a.1 = some a.2 := assocFind_of_mem_nodup h ha
  have h2 : assocFind l b.1 = some b.2 := assocFind_of_mem_nodup h hb
  rw [hk, h2] at h1
  exact Prod.ext hk (Option.some.inj h1).symm

/-- A stale binding for `u1` (25 hours idle at sweep time). -/
def udStale : UserData := ⟨"u1", "N", 1, 1, "fj", "L", "online", 1⟩

/-- A live binding for `u1` (active at sweep time). -/
def udLive : UserData := ⟨"u1", "N", 1, 86400002, "fj", "L", "online", 1⟩

/-- Sweep clock: just past the 24-hour retention threshold for `udStale`. -/
def clockSweep : Clock := ⟨86400002, "iso"⟩

/-- Two bindings for player `u1`: stale `fp1` and live `fp2`, with the
identity and a stats record present. -/
def umSweep : UMState :=
  ⟨[("u1", ⟨"u1", "N", "ip", "o", 1, "fj", "L", "online", 1⟩)],
   [("fp1", udStale), ("fp2", udLive)], 1, [("u1", defaultStats "fj" "L")]⟩

/-- One live connection on `fp2`. -/
def cmSweep : CMState := ⟨[(10, mkClient (some "u1") (some "fp2"))]⟩

/-- Claim C9, counterexample to "the evicted player's PlayerIdentity and
statistics are removed only if no other binding references the same
playerId": the sweep evicts stale `fp1` and deletes `u1`'s statistics even
though the surviving live binding `fp2` still references `u1`; and the
identity record in `users` is never removed at all. -/
theorem C9_counterexample :
    (pruneInactiveBrowsers umSweep cmSweep clockSweep).1 = 1 ∧
    assocHas umSweep.userStats "u1" = true ∧
    assocFind (pruneInactiveBrowsers umSweep cmSweep
      clockSweep).2.userStats "u1" = none ∧
    (assocFind (pruneInactiveBrowsers umSweep cmSweep
      clockSweep).2.browserToUser "fp2").map UserData.userId = some "u1" ∧
    akeys (pruneInactiveBrowsers umSweep cmSweep clockSweep).2.users =
      ["u1"] := by decide

/-- Claim C9 (amended): each sweep marks Offline every surviving binding
with zero live connections; it evicts exactly the bindings with zero live
connections whose truthy `lastActivity` is older than 24 hours, and for
each evicted binding it deletes the statistics record of its `playerId`
*unconditionally* — even when another binding still references that
`playerId`; the PlayerIdentity records in `users` are never evicted (their
key set is unchanged). -/
theorem C9_reaper_sweep (um : UMState) (cm : CMState) (clock : Clock)
    (hb : (akeys um.browserToUser).Nodup)
    (hs : (akeys um.userStats).Nodup) :
    (∀ e ∈ (pruneInactiveBrowsers um cm clock).2.browserToUser,
      hasBrowserConnections cm e.1 = false → e.2.status = "offline") ∧
    akeys (pruneInactiveBrowsers um cm clock).2.users = akeys um.users ∧
    (∀ e ∈ um.browserToUser, hasBrowserConnections cm e.1 = false →
      e.2.lastActivity ≠ 0 →
      clock.now - e.2.lastActivity > INACTIVE_THRESHOLD →
      e.1 ∉ akeys (pruneInactiveBrowsers um cm clock).2.browserToUser ∧
      e.2.userId ∉ akeys (pruneInactiveBrowsers um cm clock).2.userStats) ∧
    (∀ e ∈ um.browserToUser,
      ¬(hasBrowserConnections cm e.1 = false ∧ e.2.lastActivity ≠ 0 ∧
        clock.now - e.2.lastActivity > INACTIVE_THRESHOLD) →
      e.1 ∈ akeys (pruneInactiveBrowsers um cm clock).2.browserToUser) := by
  have hbtu1 : (um.browserToUser.foldl (pruneStep cm clock)
      ([], um.userStats, um.users, [])).1 =
      um.browserToUser.map (pruneVal cm clock) := by
    simpa using prune_fold_btu cm clock um.browserToUser
      ([], um.userStats, um.users, [])
  have htp : (um.browserToUser.foldl (pruneStep cm clock)
      ([], um.userStats, um.users, [])).2.2.2 =
      um.browserToUser.filterMap (pruneSel cm clock) := by
    simpa using prune_fold_toPrune cm clock um.browserToUser
      ([], um.userStats, um.users, [])
  have hkeys1 : akeys ((um.browserToUser.foldl (pruneStep cm clock)
      ([], um.userStats, um.users, [])).1) = akeys um.browserToUser := by
    rw [hbtu1]
    exact akeys_map_val um.browserToUser
      (fun e => if hasBrowserConnections cm e.1 then e.2
        else { e.2 with status := "offline", lastStatusChange := clock.now })
  have hnodup1 : (akeys ((um.browserToUser.foldl (pruneStep cm clock)
      ([], um.userStats, um.users, [])).1)).Nodup := by
    rw [hkeys1]; exact hb
  have hstats1 : (akeys ((um.browserToUser.foldl (pruneStep cm clock)
      ([], um.userStats, um.users, [])).2.1)).Nodup :=
    prune_fold_stats_nodup cm clock um.browserToUser
      ([], um.userStats, um.users, []) hs
  refine ⟨?_, ?_, ?_, ?_⟩
  · -- (i) surviving no-connection bindings are offline
    intro e hmem hconn
    have hsub : e ∈ (um.browserToUser.foldl (pruneStep cm clock)
        ([], um.userStats, um.users, [])).1 :=
      (evict_fold_btu_sublist _ _).subset hmem
    rw [hbtu1] at hsub
    obtain ⟨e0, he0, heq⟩ := List.mem_map.mp hsub
    subst heq
    simp only [pruneVal] at hconn ⊢
    simp [hconn]
  · -- (ii) identity records are never evicted
    simpa using prune_fold_users_akeys cm clock um.browserToUser
      ([], um.userStats, um.users, [])
  · -- (iii) eviction removes the binding and, unconditionally, the stats
    intro e hmem hconn hla hold
    have hsel : pruneSel cm clock e = some e.1 := by
      simp [pruneSel, hconn, hla, hold]
    have hin : e.1 ∈ (um.browserToUser.foldl (pruneStep cm clock)
        ([], um.userStats, um.users, [])).2.2.2 := by
      rw [htp]
      exact List.mem_filterMap.mpr ⟨e, hmem, hsel⟩
    have hmm : (e.1, (pruneVal cm clock e).2) ∈
        (um.browserToUser.foldl (pruneStep cm clock)
          ([], um.userStats, um.users, [])).1 := by
      rw [hbtu1]
      exact List.mem_map_of_mem _ hmem
    have hfind := assocFind_of_mem_nodup hnodup1 hmm
    have huid : (pruneVal cm clock e).2.userId = e.2.userId := by
      simp only [pruneVal]
      split_ifs <;> rfl
    exact evict_fold_removes _ _ e.1 e.2.userId hin hnodup1 hstats1
      ⟨_, hfind, huid⟩
  · -- (iv) bindings outside the eviction condition survive
    intro e hmem hncond
    have hmem1 : e.1 ∈ akeys ((um.browserToUser.foldl (pruneStep cm clock)
        ([], um.userStats, um.users, [])).1) := by
      rw [hkeys1]
      exact List.mem_map_of_mem Prod.fst hmem
    have hnot : e.1 ∉ (um.browserToUser.foldl (pruneStep cm clock)
        ([], um.userStats, um.users, [])).2.2.2 := by
      rw [htp]
      intro hcontra
      obtain ⟨a, ha, hsel⟩ := List.mem_filterMap.mp hcontra
      have hconn : hasBrowserConnections cm a.1 = false ∧
          (a.2.lastActivity ≠ 0 ∧
            clock.now - a.2.lastActivity > INACTIVE_THRESHOLD) ∧
          a.1 = e.1 := by
        by_cases h1 : hasBrowserConnections cm a.1 = true
        · simp [pruneSel, h1] at hsel
        · simp only [Bool.not_eq_true] at h1
          by_cases h2 : a.2.lastActivity ≠ 0 ∧
              clock.now - a.2.lastActivity > INACTIVE_THRESHOLD
          · refine ⟨h1, h2, ?_⟩
            simpa [pruneSel, h1, h2] using hsel
          · simp [pruneSel, h1, h2] at hsel
      have hae : a = e := eq_of_mem_akeys_nodup hb ha hmem hconn.2.2
      subst hae
      exact hncond ⟨hconn.1, hconn.2.1⟩
    exact evict_fold_preserves _ _ e.1 hnot hmem1

/-- Witness for C9 on the concrete two-binding state: `fp1` is evicted
with `u1`'s stats, `fp2` survives, the identity key set is unchanged. -/
theorem C9_reaper_sweep_witness :
    ("fp1" ∉ akeys (pruneInactiveBrowsers umSweep cmSweep
      clockSweep).2.browserToUser ∧
     "u1" ∉ akeys (pruneInactiveBrowsers umSweep cmSweep
      clockSweep).2.userStats) ∧
    "fp2" ∈ akeys (pruneInactiveBrowsers umSweep cmSweep
      clockSweep).2.browserToUser ∧
    akeys (pruneInactiveBrowsers umSweep cmSweep clockSweep).2.users =
      akeys umSweep.users := by
  have h := C9_reaper_sweep umSweep cmSweep clockSweep (by decide) (by decide)
  refine ⟨?_, ?_, h.2.1⟩
  · exact h.2.2.1 ("fp1", udStale) (by decide) (by decide) (by decide)
      (by decide)
  · exact h.2.2.2 ("fp2", udLive) (by decide) (by decide)
